import Mathlib

/-!
Verification of the bitget-trading strategy core: a shallow embedding of the
order-state tracker, scalping Loop B reconciler, merge engine, risk
controller, grid level manager, contract-spec cache and auto-calc service,
with theorems checking the natural-language specification against the code.

Conventions of the embedding:
  * Exchange order ids and client oids are opaque identities; they are
    modelled as natural numbers.
  * JavaScript numbers that the code obtains from decimal strings via
    parseFloat, and the running sums over them, are modelled as exact
    rationals.  `Number.prototype.toFixed(p)` followed by parseFloat, and
    `Math.round(v * 10^p) / 10^p`, are both modelled by `jsToFixed`
    (round half up at `p` decimal places; all values the code rounds are
    nonnegative, where JS toFixed and Math.round agree with half-up).
  * Epoch-millisecond timestamps are naturals.
  * Fallible exchange calls are oracles passed in as `Option`-valued
    arguments or functions (none = the call threw).
  * Fire-and-forget persistence writes carry no core state and are omitted.
-/

namespace BitgetTrading


/-- JS rounding to the nearest integer, half up (Math.round on nonnegative
values, and the rounding used by toFixed on nonnegative values). -/
def jsRound (q : ℚ) : ℤ := ⌊q + 1/2⌋

/-- `v.toFixed(p)` re-parsed as a number, and `Math.round(v*10^p)/10^p`,
for nonnegative `v`: round half up at `p` decimal places. -/
def jsToFixed (q : ℚ) (p : ℕ) : ℚ := (jsRound (q * 10 ^ p) : ℚ) / 10 ^ p

/-- Rounding DOWN at `p` decimal places.  This is NOT what the code uses;
it is the operation named `round_down` by the specification text, defined
here only to compare the spec's words against the source (claim C4). -/
def roundDown (q : ℚ) (p : ℕ) : ℚ := (⌊q * 10 ^ p⌋ : ℚ) / 10 ^ p

/-- `Math.abs`. -/
def jsAbs (q : ℚ) : ℚ := if q < 0 then -q else q

/-! ## Order state tracker (src/api/src/strategy/order-state-tracker.ts)

`TrackedOrder` and the `OrderStateTracker` class.  The tracker's
`Map<string, TrackedOrder>` is modelled as a list of orders in insertion
order; `Map.set` is always called with the order's own id as key, so the
key is kept inside the order and map update is in-place replacement. -/

inductive Side
  | buy
  | sell
deriving DecidableEq, Repr

inductive OrderStatus
  | pending
  | filled
  | cancelled
  | failed
deriving DecidableEq, Repr

inductive Direction
  | long
  | short
  | both
deriving DecidableEq, Repr

structure TrackedOrder where
  orderId : ℕ
  clientOid : ℕ
  side : Side
  price : ℚ
  size : ℚ
  status : OrderStatus
  linkedOrderId : Option ℕ
  direction : Direction
  createdAt : ℕ
  filledAt : Option ℕ
deriving DecidableEq, Repr

structure TrackerState where
  orders : List TrackedOrder
  activeBuyOrderId : Option ℕ
deriving DecidableEq, Repr

/-- The empty tracker (a freshly constructed OrderStateTracker). -/
def TrackerState.init : TrackerState := { orders := [], activeBuyOrderId := none }

/-- `this.orders.get(orderId)`. -/
def getOrder (st : TrackerState) (oid : ℕ) : Option TrackedOrder :=
  st.orders.find? (fun o => o.orderId == oid)

/-- `Map.set(o.orderId, o)`: replace in place if the key exists, else append. -/
def mapSet (l : List TrackedOrder) (o : TrackedOrder) : List TrackedOrder :=
  if l.any (fun x => x.orderId == o.orderId) then
    l.map (fun x => if x.orderId == o.orderId then o else x)
  else l ++ [o]

/-- `addOrder`: store the order; a pending buy takes the active-buy slot. -/
def addOrder (st : TrackerState) (o : TrackedOrder) : TrackerState :=
  { orders := mapSet st.orders o
    activeBuyOrderId :=
      if o.side = Side.buy ∧ o.status = OrderStatus.pending then some o.orderId
      else st.activeBuyOrderId }

/-- In-place mutation of the stored order with a given id (`order.field = v`
on the object obtained from the map). -/
def updateStored (l : List TrackedOrder) (oid : ℕ) (f : TrackedOrder → TrackedOrder) :
    List TrackedOrder :=
  l.map (fun x => if x.orderId == oid then f x else x)

/-- `confirmFilled`: second reconciliation step; only a pending order is
marked filled, and a filled buy releases the active-buy slot.  Returns the
updated tracker and the confirmed order (null when absent or not pending). -/
def confirmFilled (st : TrackerState) (oid : ℕ) (now : ℕ) :
    TrackerState × Option TrackedOrder :=
  match getOrder st oid with
  | none => (st, none)
  | some o =>
    if o.status ≠ OrderStatus.pending then (st, none)
    else
      let o' : TrackedOrder := { o with status := OrderStatus.filled, filledAt := some now }
      ({ orders := updateStored st.orders oid (fun x => { x with status := OrderStatus.filled, filledAt := some now })
         activeBuyOrderId :=
           if o.side = Side.buy ∧ st.activeBuyOrderId = some oid then none
           else st.activeBuyOrderId },
       some o')

/-- `markExchangeCancelled`: only a pending order is marked cancelled. -/
def markExchangeCancelled (st : TrackerState) (oid : ℕ) : TrackerState :=
  match getOrder st oid with
  | none => st
  | some o =>
    if o.status = OrderStatus.pending then
      { orders := updateStored st.orders oid (fun x => { x with status := OrderStatus.cancelled })
        activeBuyOrderId :=
          if st.activeBuyOrderId = some oid then none else st.activeBuyOrderId }
    else st

/-- `markCancelled`: marks the order cancelled WITHOUT any status guard. -/
def markCancelled (st : TrackerState) (oid : ℕ) : TrackerState :=
  match getOrder st oid with
  | none => st
  | some _ =>
    { orders := updateStored st.orders oid (fun x => { x with status := OrderStatus.cancelled })
      activeBuyOrderId :=
        if st.activeBuyOrderId = some oid then none else st.activeBuyOrderId }

/-- `markBatchCancelled`: `markCancelled` over a list of ids. -/
def markBatchCancelled (st : TrackerState) (oids : List ℕ) : TrackerState :=
  oids.foldl markCancelled st

/-- `clearActiveBuy`. -/
def clearActiveBuy (st : TrackerState) : TrackerState :=
  { st with activeBuyOrderId := none }

/-- `linkOrders`: record the paired sell on the buy order. -/
def linkOrders (st : TrackerState) (buyId sellId : ℕ) : TrackerState :=
  { st with orders := updateStored st.orders buyId (fun x => { x with linkedOrderId := some sellId }) }

/-- `clear`. -/
def trackerClear (_st : TrackerState) : TrackerState := TrackerState.init

/-- Comparison key used by `cleanup`: `filledAt || createdAt` (JS `||` also
falls through on the falsy timestamp 0). -/
def cleanupKey (o : TrackedOrder) : ℕ :=
  match o.filledAt with
  | some t => if t = 0 then o.createdAt else t
  | none => o.createdAt

/-- `cleanup(keepRecent)`: keep at most `keepRecent` non-pending orders,
preferring the most recent ones; pending orders are never evicted. -/
def cleanup (st : TrackerState) (keepRecent : ℕ) : TrackerState :=
  let completed := st.orders.filter (fun o => o.status != OrderStatus.pending)
  let sorted := completed.mergeSort (fun a b => decide (cleanupKey b ≤ cleanupKey a))
  if sorted.length > keepRecent then
    let toDelete := (sorted.drop keepRecent).map (fun o => o.orderId)
    { st with orders := st.orders.filter (fun o => !(toDelete.contains o.orderId)) }
  else st

/-- The pending-sell predicate used by the sell views. -/
def isPendingSell (o : TrackedOrder) : Bool :=
  o.side == Side.sell && o.status == OrderStatus.pending

/-- `getPendingSellOrders`: pending sells sorted ascending by createdAt
(JS Array.sort with comparator `a.createdAt - b.createdAt`, a stable
ascending sort; modelled with the stable mergeSort). -/
def getPendingSellOrders (st : TrackerState) : List TrackedOrder :=
  (st.orders.filter isPendingSell).mergeSort
    (fun a b => decide (a.createdAt ≤ b.createdAt))

/-- Number of pending sell orders in the tracker. -/
def pendingSellCount (st : TrackerState) : ℕ :=
  (st.orders.filter isPendingSell).length

/-- Number of pending buy orders in the tracker. -/
def pendingBuyCount (st : TrackerState) : ℕ :=
  (st.orders.filter (fun o => o.side == Side.buy && o.status == OrderStatus.pending)).length

/-- `findDisappearedOrders`: locally pending orders absent from the
exchange pending-order snapshot. -/
def findDisappearedOrders (st : TrackerState) (exchangePendingIds : List ℕ) :
    List TrackedOrder :=
  st.orders.filter
    (fun o => o.status == OrderStatus.pending && !(exchangePendingIds.contains o.orderId))

/-! ## Grid level manager (grid-level-manager.ts) -/

inductive GridLevelState
  | empty
  | buy_pending
  | buy_filled
  | sell_pending
deriving DecidableEq, Repr

structure GridLevel where
  index : ℕ
  price : ℚ
  state : GridLevelState
  buyOrderId : Option ℕ
  sellOrderId : Option ℕ
  size : ℚ
deriving DecidableEq, Repr

inductive GridType
  | arithmetic
  | geometric
deriving DecidableEq, Repr

structure GridManagerConfig where
  upperPrice : ℚ
  lowerPrice : ℚ
  gridCount : ℕ
  gridType : GridType
  orderAmountUsdt : ℚ
  pricePrecision : ℕ
  sizePrecision : ℕ
deriving Repr

/-- Raw (pre-rounding) price of level `i`.  The arithmetic ladder is exact;
the geometric ladder calls the floating point `Math.pow(upper/lower, i/count)`,
whose value is not a rational function of the inputs, so it is supplied as
an oracle `geomPow` (the claims proved here do not depend on level prices). -/
def levelRawPrice (cfg : GridManagerConfig) (geomPow : ℕ → ℚ) (i : ℕ) : ℚ :=
  match cfg.gridType with
  | GridType.arithmetic =>
      cfg.lowerPrice + i * (cfg.upperPrice - cfg.lowerPrice) / cfg.gridCount
  | GridType.geometric => cfg.lowerPrice * geomPow i

/-- `calculateLevels`: levels `0..gridCount`, every level starts `empty`
with both order-id slots null. -/
def calculateLevels (cfg : GridManagerConfig) (geomPow : ℕ → ℚ) : List GridLevel :=
  (List.range (cfg.gridCount + 1)).map (fun i =>
    let raw := levelRawPrice cfg geomPow i
    { index := i
      price := jsToFixed raw cfg.pricePrecision
      state := GridLevelState.empty
      buyOrderId := none
      sellOrderId := none
      size := jsToFixed (cfg.orderAmountUsdt / raw) cfg.sizePrecision })

/-- The per-level field update performed by `updateLevelState` (the
else-if chain on the new state and optional order id). -/
def updLevelFields (level : GridLevel) (state : GridLevelState) (orderId : Option ℕ) :
    GridLevel :=
  let l := { level with state := state }
  match state, orderId with
  | GridLevelState.buy_pending, some oid => { l with buyOrderId := some oid }
  | GridLevelState.sell_pending, some oid => { l with sellOrderId := some oid }
  | GridLevelState.empty, _ => { l with buyOrderId := none, sellOrderId := none }
  | _, _ => l

/-- `updateLevelState(index, state, orderId?)`; out-of-range index is a no-op. -/
def updateLevelState (levels : List GridLevel) (index : ℕ) (state : GridLevelState)
    (orderId : Option ℕ) : List GridLevel :=
  match levels.get? index with
  | none => levels
  | some level => levels.set index (updLevelFields level state orderId)

/-- `getPendingOrderIds`: buy ids of buy_pending levels and sell ids of
sell_pending levels, in level order. -/
def getPendingOrderIds : List GridLevel → List ℕ
  | [] => []
  | l :: rest =>
      (if l.state = GridLevelState.buy_pending then l.buyOrderId.toList else []) ++
      (if l.state = GridLevelState.sell_pending then l.sellOrderId.toList else []) ++
      getPendingOrderIds rest

/-- The invariant of claim C10: an `empty` level holds no order ids. -/
def emptyLevelInv (levels : List GridLevel) : Prop :=
  ∀ l ∈ levels, l.state = GridLevelState.empty → l.buyOrderId = none ∧ l.sellOrderId = none

instance (levels : List GridLevel) : Decidable (emptyLevelInv levels) := by
  unfold emptyLevelInv; infer_instance

/-- A sample grid configuration used to instantiate hypothesis-bearing
theorems on concrete inputs. -/
def sampleGridCfg : GridManagerConfig :=
  { upperPrice := 110
    lowerPrice := 100
    gridCount := 2
    gridType := GridType.arithmetic
    orderAmountUsdt := 10
    pricePrecision := 2
    sizePrecision := 4 }

/-- A sample one-level grid state. -/
def sampleLevels : List GridLevel :=
  [{ index := 0
     price := 100
     state := GridLevelState.empty
     buyOrderId := none
     sellOrderId := none
     size := 1 }]

/-! ## Risk controller (risk-controller.ts) -/

structure RiskConfig where
  maxDailyLossUsdt : ℚ
  maxDrawdownPercent : ℚ
  maxPositionUsdt : ℚ
  cooldownMs : ℕ
deriving DecidableEq, Repr

structure RiskState where
  dailyPnl : ℚ
  peakEquity : ℚ
  currentEquity : ℚ
  dailyResetDate : ℕ
  coolingUntil : Option ℕ
  totalTrades : ℕ
  winTrades : ℕ
  lossTrades : ℕ
  totalWin : ℚ
  totalLoss : ℚ
deriving DecidableEq, Repr

inductive DenyReason
  | cooldown
  | dailyLoss
  | drawdown
  | position
deriving DecidableEq, Repr

structure RiskCheckResult where
  canTrade : Bool
  reason : Option DenyReason
deriving DecidableEq, Repr

/-- Milliseconds per UTC day; `getTodayKey` compares ISO date strings of
`Date.now()`, i.e. the epoch-millisecond timestamp divided by this. -/
def msPerDay : ℕ := 86400000

/-- The UTC calendar day of an epoch-millisecond timestamp. -/
def todayKey (now : ℕ) : ℕ := now / msPerDay

/-- RiskController constructor: zero PnL, peak = current = initial equity. -/
def riskInit (initialEquity : ℚ) (now : ℕ) : RiskState :=
  { dailyPnl := 0
    peakEquity := initialEquity
    currentEquity := initialEquity
    dailyResetDate := todayKey now
    coolingUntil := none
    totalTrades := 0
    winTrades := 0
    lossTrades := 0
    totalWin := 0
    totalLoss := 0 }

/-- `triggerCooldown`: arm the cooldown until `now + cooldownMs`. -/
def triggerCooldown (cfg : RiskConfig) (st : RiskState) (now : ℕ) : RiskState :=
  { st with coolingUntil := some (now + cfg.cooldownMs) }

/-- The rule checks of `checkCanTrade` that run after the cooldown gate:
daily loss (arms a cooldown), drawdown (arms a cooldown), position cap. -/
def riskChecksAfterCooldown (cfg : RiskConfig) (st : RiskState) (now : ℕ) (pos : ℚ) :
    RiskState × RiskCheckResult :=
  if st.dailyPnl < 0 ∧ jsAbs st.dailyPnl ≥ cfg.maxDailyLossUsdt then
    (triggerCooldown cfg st now, { canTrade := false, reason := some DenyReason.dailyLoss })
  else if 0 < st.peakEquity ∧
      (st.peakEquity - st.currentEquity) / st.peakEquity * 100 ≥ cfg.maxDrawdownPercent then
    (triggerCooldown cfg st now, { canTrade := false, reason := some DenyReason.drawdown })
  else if pos ≥ cfg.maxPositionUsdt then
    (st, { canTrade := false, reason := some DenyReason.position })
  else (st, { canTrade := true, reason := none })

/-- `checkCanTrade(currentPositionUsdt)`: daily rollover, then the cooldown
gate (an expired cooldown is cleared and the rule checks re-run), then the
daily-loss / drawdown / position rules. -/
def checkCanTrade (cfg : RiskConfig) (st0 : RiskState) (now : ℕ) (pos : ℚ) :
    RiskState × RiskCheckResult :=
  let st1 :=
    if todayKey now ≠ st0.dailyResetDate then
      { st0 with dailyPnl := 0, dailyResetDate := todayKey now }
    else st0
  match st1.coolingUntil with
  | some t =>
    if now < t then (st1, { canTrade := false, reason := some DenyReason.cooldown })
    else riskChecksAfterCooldown cfg { st1 with coolingUntil := none } now pos
  | none => riskChecksAfterCooldown cfg st1 now pos

/-- `recordPnl(pnl)`: accumulate daily PnL and equity, update win/loss
statistics, maintain the peak-equity watermark. -/
def recordPnl (st : RiskState) (pnl : ℚ) : RiskState :=
  let stA :=
    { st with
      dailyPnl := st.dailyPnl + pnl
      currentEquity := st.currentEquity + pnl
      totalTrades := st.totalTrades + 1 }
  let stB :=
    if pnl > 0 then
      { stA with winTrades := stA.winTrades + 1, totalWin := stA.totalWin + pnl }
    else if pnl < 0 then
      { stA with lossTrades := stA.lossTrades + 1, totalLoss := stA.totalLoss + jsAbs pnl }
    else stA
  if stB.currentEquity > stB.peakEquity then { stB with peakEquity := stB.currentEquity }
  else stB

/-- `updateEquity(equity)`. -/
def updateEquity (st : RiskState) (equity : ℚ) : RiskState :=
  let st := { st with currentEquity := equity }
  if equity > st.peakEquity then { st with peakEquity := equity } else st

/-- The configuration of the claim C2 scenario: maxDailyLoss 100,
cooldown 60 s, drawdown rule effectively off, large position cap. -/
def c2Cfg : RiskConfig :=
  { maxDailyLossUsdt := 100
    maxDrawdownPercent := 100
    maxPositionUsdt := 100000
    cooldownMs := 60000 }

/-- The risk state of the claim C2 scenario: started with equity 1000 at
epoch 0, then one recorded loss of 100.5. -/
def c2State : RiskState := recordPnl (riskInit 1000 0) (-(201/2))

/-! ## Scalping size calculation (scalping-strategy.engine.ts, calculateSize) -/

/-- `calculateSize(amountUsdt, price, precision)`: quotient, raw-value
minimum-precision check, `toFixed` rounding, then the contract-spec
minimum-size check; `none` models the empty-string return (skip). -/
def calculateSize (amountUsdt price : ℚ) (precision : ℕ) (minTradeNum : Option ℚ) :
    Option ℚ :=
  if price ≤ 0 then none
  else
    let size := amountUsdt / price
    let minSize : ℚ := 1 / 10 ^ precision
    if size < minSize then none
    else
      let result := jsToFixed size precision
      match minTradeNum with
      | some m => if result < m then none else some result
      | none => some result

/-- Modelled from the spec: the C4 sentence "size = round_down(notional /
price, volumePlace); if the result is below minTradeNum or below
10^-volumePlace, skip placement".  Defined ONLY to compare the spec's words
with the source's `calculateSize`. -/
def calculateSizeSpec (amountUsdt price : ℚ) (precision : ℕ) (minTradeNum : Option ℚ) :
    Option ℚ :=
  if price ≤ 0 then none
  else
    let result := roundDown (amountUsdt / price) precision
    if result < 1 / 10 ^ precision then none
    else
      match minTradeNum with
      | some m => if result < m then none else some result
      | none => some result

/-! ## Contract/instrument spec cache (contract-spec.service.ts)

The cache is keyed by (symbol, productType); the model follows the life of
one key.  Each spec value is paired with a ghost timestamp recording when
it was actually fetched from the exchange, so freshness claims can be
stated; the memory tier additionally records when the entry entered the
in-memory map (the code's `fetchedAt`, stamped `Date.now()` on insertion). -/

structure InstrumentSpecInfo where
  symbol : String
  baseCoin : String
  quoteCoin : String
  pricePlace : ℕ
  volumePlace : ℕ
  minTradeNum : ℚ
  sizeMultiplier : ℚ
  makerFeeRate : ℚ
  takerFeeRate : ℚ
deriving DecidableEq, Repr

/-- An in-memory cache entry. -/
structure MemCacheEntry where
  spec : InstrumentSpecInfo
  /-- Ghost: when this spec value was fetched from the exchange. -/
  exchangeFetchedAt : ℕ
  /-- The code's `fetchedAt`: when the entry entered the memory map. -/
  memFetchedAt : ℕ
deriving DecidableEq, Repr

/-- A `contract_specs` DB row: `fetched_at` is stamped NOW() by `saveToDb`
at the time of the exchange fetch, so it equals the ghost fetch time. -/
structure DbSpecRow where
  spec : InstrumentSpecInfo
  fetchedAt : ℕ
deriving DecidableEq, Repr

inductive SpecSource
  | memoryTier
  | dbTier
  | apiTier
deriving DecidableEq, Repr

def CACHE_TTL_MS : ℕ := 3600000

/-- A spec returned by `getSpec`, tagged with its ghost exchange-fetch time
and the tier that served it. -/
structure GetSpecResult where
  spec : InstrumentSpecInfo
  exchangeFetchedAt : ℕ
  source : SpecSource
deriving DecidableEq, Repr

/-- Tiers 2 and 3 of `getSpec`: DB row (no fetched_at filter; the entry is
re-stamped into memory with `fetchedAt := Date.now()`), then the exchange
endpoint (`refreshSpec`, which also writes the DB row).  Returns the
result, the new memory entry and the new DB row; `api = none` models the
exchange call failing or the symbol being absent (error thrown, state
unchanged). -/
def getSpecDbOrApi (mem : Option MemCacheEntry) (db : Option DbSpecRow)
    (api : Option InstrumentSpecInfo) (now : ℕ) :
    Option GetSpecResult × Option MemCacheEntry × Option DbSpecRow :=
  match db with
  | some row =>
      (some { spec := row.spec, exchangeFetchedAt := row.fetchedAt, source := SpecSource.dbTier },
       some { spec := row.spec, exchangeFetchedAt := row.fetchedAt, memFetchedAt := now },
       db)
  | none =>
    match api with
    | none => (none, mem, db)
    | some s =>
        (some { spec := s, exchangeFetchedAt := now, source := SpecSource.apiTier },
         some { spec := s, exchangeFetchedAt := now, memFetchedAt := now },
         some { spec := s, fetchedAt := now })

/-- `getSpec`: memory tier (valid while `now − fetchedAt < 1h`), then DB,
then exchange. -/
def getSpec (mem : Option MemCacheEntry) (db : Option DbSpecRow)
    (api : Option InstrumentSpecInfo) (now : ℕ) :
    Option GetSpecResult × Option MemCacheEntry × Option DbSpecRow :=
  match mem with
  | some e =>
    if now - e.memFetchedAt < CACHE_TTL_MS then
      (some { spec := e.spec, exchangeFetchedAt := e.exchangeFetchedAt,
              source := SpecSource.memoryTier },
       mem, db)
    else getSpecDbOrApi mem db api now
  | none => getSpecDbOrApi mem db api now

/-- A sample instrument spec. -/
def sampleSpec : InstrumentSpecInfo :=
  { symbol := "BTCUSDT"
    baseCoin := "BTC"
    quoteCoin := "USDT"
    pricePlace := 1
    volumePlace := 6
    minTradeNum := 1/10000
    sizeMultiplier := 1
    makerFeeRate := 1/5000
    takerFeeRate := 3/5000 }

/-! ## Auto-calc (AutoCalcService.calculateScalping / calculateGrid)

Only `fullConfig` is modelled (the claims concern it); the derivations and
bounds lists are descriptive strings built from the same values. -/

inductive RiskLevel
  | conservative
  | balanced
  | aggressive
deriving DecidableEq, Repr

inductive TradingType
  | futures
  | spot
deriving DecidableEq, Repr

structure ScalpingPreset where
  spreadMultiplier : ℚ
  maxPositionPercent : ℚ
  maxDrawdownPercent : ℚ
  stopLossPercent : ℚ
  dailyLossPercent : ℚ
  maxPendingOrders : ℕ
  mergeThreshold : ℕ
  pollIntervalMs : ℕ
  orderCheckIntervalMs : ℕ
  cooldownMs : ℕ
deriving DecidableEq, Repr

/-- The scalping preset table (risk-presets.ts). -/
def SCALPING_PRESETS : RiskLevel → ScalpingPreset
  | RiskLevel.conservative =>
      { spreadMultiplier := 3, maxPositionPercent := 1/10, maxDrawdownPercent := 3
        stopLossPercent := 2, dailyLossPercent := 1/50, maxPendingOrders := 100
        mergeThreshold := 15, pollIntervalMs := 2000, orderCheckIntervalMs := 3000
        cooldownMs := 120000 }
  | RiskLevel.balanced =>
      { spreadMultiplier := 2, maxPositionPercent := 1/5, maxDrawdownPercent := 5
        stopLossPercent := 3, dailyLossPercent := 1/20, maxPendingOrders := 200
        mergeThreshold := 21, pollIntervalMs := 1000, orderCheckIntervalMs := 2000
        cooldownMs := 60000 }
  | RiskLevel.aggressive =>
      { spreadMultiplier := 3/2, maxPositionPercent := 2/5, maxDrawdownPercent := 10
        stopLossPercent := 5, dailyLossPercent := 1/10, maxPendingOrders := 300
        mergeThreshold := 30, pollIntervalMs := 500, orderCheckIntervalMs := 1000
        cooldownMs := 30000 }

structure GridPreset where
  rangePercent : ℚ
  gridCount : ℕ
  maxPositionPercent : ℚ
  maxDrawdownPercent : ℚ
  stopLossPercent : ℚ
  dailyLossPercent : ℚ
  pollIntervalMs : ℕ
  orderCheckIntervalMs : ℕ
  cooldownMs : ℕ
deriving DecidableEq, Repr

/-- The grid preset table (risk-presets.ts). -/
def GRID_PRESETS : RiskLevel → GridPreset
  | RiskLevel.conservative =>
      { rangePercent := 5, gridCount := 10, maxPositionPercent := 3/20
        maxDrawdownPercent := 3, stopLossPercent := 2, dailyLossPercent := 1/50
        pollIntervalMs := 5000, orderCheckIntervalMs := 5000, cooldownMs := 120000 }
  | RiskLevel.balanced =>
      { rangePercent := 10, gridCount := 20, maxPositionPercent := 3/10
        maxDrawdownPercent := 5, stopLossPercent := 3, dailyLossPercent := 1/20
        pollIntervalMs := 3000, orderCheckIntervalMs := 3000, cooldownMs := 60000 }
  | RiskLevel.aggressive =>
      { rangePercent := 20, gridCount := 50, maxPositionPercent := 1/2
        maxDrawdownPercent := 10, stopLossPercent := 5, dailyLossPercent := 1/10
        pollIntervalMs := 2000, orderCheckIntervalMs := 2000, cooldownMs := 30000 }

/-- The ticker snapshot fields auto-calc reads. -/
structure TickerInfo where
  lastPr : ℚ
  high24h : ℚ
  low24h : ℚ
deriving DecidableEq, Repr

/-- The simple-mode input of `AutoCalcService.calculate`. -/
structure SimpleConfigInput where
  tradingType : TradingType
  symbol : String
  orderAmountUsdt : ℚ
  direction : Option Direction
  riskLevel : RiskLevel
deriving DecidableEq, Repr

/-- `roundToPrice`: `Math.round(value * 10^pricePlace) / 10^pricePlace`. -/
def roundToPrice (v : ℚ) (pricePlace : ℕ) : ℚ := jsToFixed v pricePlace

/-- `roundToUsdt`: two decimal places. -/
def roundToUsdt (v : ℚ) : ℚ := jsToFixed v 2

/-- `calcMinProfitableSpread`. -/
def calcMinProfitableSpread (price makerFeeRate takerFeeRate : ℚ) : ℚ :=
  price * (makerFeeRate + takerFeeRate)

/-- The instance id built by auto-calc: `auto-<symbol>-<Date.now()>`. -/
def autoInstanceId (symbol : String) (now : ℕ) : String :=
  "auto-" ++ symbol ++ "-" ++ toString now

structure ScalpingFullConfig where
  tradingType : TradingType
  instanceId : String
  symbol : String
  orderAmountUsdt : ℚ
  priceSpread : ℚ
  maxPositionUsdt : ℚ
  maxPendingOrders : ℕ
  mergeThreshold : ℕ
  maxDrawdownPercent : ℚ
  stopLossPercent : ℚ
  maxDailyLossUsdt : ℚ
  cooldownMs : ℕ
  pollIntervalMs : ℕ
  orderCheckIntervalMs : ℕ
  pricePrecision : ℕ
  sizePrecision : ℕ
  productType : Option String
  marginMode : Option String
  marginCoin : Option String
  leverage : Option ℚ
  direction : Option Direction
deriving DecidableEq, Repr

/-- `AutoCalcService.calculateScalping`, with the call time `now`
(`Date.now()` inside the instance-id template literal) made explicit. -/
def calculateScalping (input : SimpleConfigInput) (spec : InstrumentSpecInfo)
    (ticker : TickerInfo) (balance : ℚ) (now : ℕ) : ScalpingFullConfig :=
  let preset := SCALPING_PRESETS input.riskLevel
  let currentPrice := ticker.lastPr
  let range24h := ticker.high24h - ticker.low24h
  let totalFeeRate := spec.makerFeeRate + spec.takerFeeRate
  let minPriceSpread := currentPrice * totalFeeRate * preset.spreadMultiplier
  let recommendedSpread := max minPriceSpread (range24h * (1/1000))
  let priceSpread := roundToPrice recommendedSpread spec.pricePlace
  let maxPositionUsdt := roundToUsdt (balance * preset.maxPositionPercent)
  let maxDailyLossUsdt := roundToUsdt (balance * preset.dailyLossPercent)
  let isFutures := input.tradingType = TradingType.futures
  { tradingType := input.tradingType
    instanceId := autoInstanceId input.symbol now
    symbol := input.symbol
    orderAmountUsdt := input.orderAmountUsdt
    priceSpread := priceSpread
    maxPositionUsdt := maxPositionUsdt
    maxPendingOrders := preset.maxPendingOrders
    mergeThreshold := preset.mergeThreshold
    maxDrawdownPercent := preset.maxDrawdownPercent
    stopLossPercent := preset.stopLossPercent
    maxDailyLossUsdt := maxDailyLossUsdt
    cooldownMs := preset.cooldownMs
    pollIntervalMs := preset.pollIntervalMs
    orderCheckIntervalMs := preset.orderCheckIntervalMs
    pricePrecision := spec.pricePlace
    sizePrecision := spec.volumePlace
    productType := if isFutures then some ("USDT-FUTURES") else none
    marginMode := if isFutures then some ("crossed") else none
    marginCoin := if isFutures then some ("USDT") else none
    leverage := if isFutures then some 1 else none
    direction := if isFutures then some (input.direction.getD Direction.long) else none }

structure GridFullConfig where
  tradingType : TradingType
  instanceId : String
  symbol : String
  orderAmountUsdt : ℚ
  upperPrice : ℚ
  lowerPrice : ℚ
  gridCount : ℕ
  gridType : GridType
  maxPositionUsdt : ℚ
  maxDrawdownPercent : ℚ
  stopLossPercent : ℚ
  maxDailyLossUsdt : ℚ
  cooldownMs : ℕ
  pollIntervalMs : ℕ
  orderCheckIntervalMs : ℕ
  pricePrecision : ℕ
  sizePrecision : ℕ
  productType : Option String
  marginMode : Option String
  marginCoin : Option String
  leverage : Option ℚ
  direction : Option Direction
deriving DecidableEq, Repr

/-- `AutoCalcService.calculateGrid`, with the call time made explicit. -/
def calculateGrid (input : SimpleConfigInput) (spec : InstrumentSpecInfo)
    (ticker : TickerInfo) (balance : ℚ) (now : ℕ) : GridFullConfig :=
  let preset := GRID_PRESETS input.riskLevel
  let currentPrice := ticker.lastPr
  let upperPrice := roundToPrice (currentPrice * (1 + preset.rangePercent / 200)) spec.pricePlace
  let lowerPrice := roundToPrice (currentPrice * (1 - preset.rangePercent / 200)) spec.pricePlace
  let maxPositionUsdt := roundToUsdt (balance * preset.maxPositionPercent)
  let maxDailyLossUsdt := roundToUsdt (balance * preset.dailyLossPercent)
  let isFutures := input.tradingType = TradingType.futures
  { tradingType := input.tradingType
    instanceId := autoInstanceId input.symbol now
    symbol := input.symbol
    orderAmountUsdt := input.orderAmountUsdt
    upperPrice := upperPrice
    lowerPrice := lowerPrice
    gridCount := preset.gridCount
    gridType := GridType.arithmetic
    maxPositionUsdt := maxPositionUsdt
    maxDrawdownPercent := preset.maxDrawdownPercent
    stopLossPercent := preset.stopLossPercent
    maxDailyLossUsdt := maxDailyLossUsdt
    cooldownMs := preset.cooldownMs
    pollIntervalMs := preset.pollIntervalMs
    orderCheckIntervalMs := preset.orderCheckIntervalMs
    pricePrecision := spec.pricePlace
    sizePrecision := spec.volumePlace
    productType := if isFutures then some ("USDT-FUTURES") else none
    marginMode := if isFutures then some ("crossed") else none
    marginCoin := if isFutures then some ("USDT") else none
    leverage := if isFutures then some 1 else none
    direction := if isFutures then some (input.direction.getD Direction.both) else none }

/-- Copy of a scalping full config with the instance id blanked, used to
compare configs modulo `instanceId`. -/
def scalpingConfigModuloId (c : ScalpingFullConfig) : ScalpingFullConfig :=
  { c with instanceId := ("") }

/-- Copy of a grid full config with the instance id blanked. -/
def gridConfigModuloId (c : GridFullConfig) : GridFullConfig :=
  { c with instanceId := ("") }

/-- A sample auto-calc input. -/
def sampleAutoInput : SimpleConfigInput :=
  { tradingType := TradingType.futures
    symbol := "BTCUSDT"
    orderAmountUsdt := 10
    direction := some Direction.long
    riskLevel := RiskLevel.balanced }

/-- A sample ticker snapshot. -/
def sampleTicker : TickerInfo := { lastPr := 70000, high24h := 71000, low24h := 69000 }

/-! ## Grid engine order map (part of GridStrategyEngine) -/

/-- `GridStrategyEngine.updateTrackedOrderStatus`: overwrites the status
unconditionally (no pending guard); `filledAt` is stamped on fill. -/
def updateTrackedOrderStatus (orders : List TrackedOrder) (oid : ℕ)
    (status : OrderStatus) (now : ℕ) : List TrackedOrder :=
  orders.map (fun o =>
    if o.orderId == oid then
      { o with status := status
               filledAt := if status = OrderStatus.filled then some now else o.filledAt }
    else o)

/-! ## C5: terminal status -/

/-- A filled (terminal) tracked order. -/
def sampleFilledOrder : TrackedOrder :=
  { orderId := 7
    clientOid := 1
    side := Side.sell
    price := 1
    size := 1
    status := OrderStatus.filled
    linkedOrderId := none
    direction := Direction.long
    createdAt := 10
    filledAt := some 20 }

/-- A tracker holding one filled order. -/
def c5St : TrackerState := { orders := [sampleFilledOrder], activeBuyOrderId := none }

/-! ## C6: tracker operation traces and the active-buy invariant -/

/-- The OrderStateTracker operations the scalping engine invokes
(`setActiveBuy` is defined in the source but has no caller). -/
inductive TrackerOp
  | addOrder (o : TrackedOrder)
  | confirmFilled (oid : ℕ) (now : ℕ)
  | markExchangeCancelled (oid : ℕ)
  | markCancelled (oid : ℕ)
  | markBatchCancelled (oids : List ℕ)
  | clearActiveBuy
  | linkOrders (buyId sellId : ℕ)
  | cleanup (keepRecent : ℕ)
  | clear
deriving Repr

def applyOp (st : TrackerState) : TrackerOp → TrackerState
  | TrackerOp.addOrder o => addOrder st o
  | TrackerOp.confirmFilled oid now => (confirmFilled st oid now).1
  | TrackerOp.markExchangeCancelled oid => markExchangeCancelled st oid
  | TrackerOp.markCancelled oid => markCancelled st oid
  | TrackerOp.markBatchCancelled oids => markBatchCancelled st oids
  | TrackerOp.clearActiveBuy => clearActiveBuy st
  | TrackerOp.linkOrders b s => linkOrders st b s
  | TrackerOp.cleanup k => cleanup st k
  | TrackerOp.clear => trackerClear st

def applyOps (st : TrackerState) (ops : List TrackerOp) : TrackerState :=
  ops.foldl applyOp st

/-- Exchange-assigned order ids are fresh: every `addOrder` of a trace
carries an id not already tracked at that point. -/
def opFresh (st : TrackerState) : TrackerOp → Bool
  | TrackerOp.addOrder o => !(st.orders.any (fun x => x.orderId == o.orderId))
  | _ => true

def freshTrace (st : TrackerState) : List TrackerOp → Bool
  | [] => true
  | op :: rest => opFresh st op && freshTrace (applyOp st op) rest

/-- Invariant: tracked ids are distinct and the active-buy slot, when set,
references a pending buy in the map. -/
def trackerInv (st : TrackerState) : Prop :=
  (st.orders.map (fun x => x.orderId)).Nodup
  ∧ ∀ oid, st.activeBuyOrderId = some oid →
      ∃ o ∈ st.orders, o.orderId = oid ∧ o.side = Side.buy ∧ o.status = OrderStatus.pending

/-- A pending buy order with id 1. -/
def c6Buy1 : TrackedOrder :=
  { orderId := 1, clientOid := 10, side := Side.buy, price := 1, size := 1
    status := OrderStatus.pending, linkedOrderId := none, direction := Direction.long
    createdAt := 1, filledAt := none }

/-- A pending buy order with id 2. -/
def c6Buy2 : TrackedOrder :=
  { orderId := 2, clientOid := 20, side := Side.buy, price := 1, size := 1
    status := OrderStatus.pending, linkedOrderId := none, direction := Direction.long
    createdAt := 2, filledAt := none }

/-- The Loop A cancel-failure path: the cancel of the active buy throws, the
engine calls `clearActiveBuy` (leaving the old buy pending in the map) and
then places a new buy, which `addOrder` tracks. -/
def c6Trace : List TrackerOp :=
  [TrackerOp.addOrder c6Buy1, TrackerOp.clearActiveBuy, TrackerOp.addOrder c6Buy2]

/-! ## Merge engine (merge-engine.ts) -/

inductive OrderForce
  | post_only
  | gtc
  | normal
deriving DecidableEq, Repr

inductive TradeSide
  | openSide
  | closeSide
deriving DecidableEq, Repr

inductive OrderKind
  | limit
  | market
deriving DecidableEq, Repr

/-- The order-placement request fields the merge engine fills in
(venue/margin routing fields of the unified parameter struct are fixed
copies of the config and carry no logic). -/
structure PlaceOrderParams where
  symbol : String
  size : ℚ
  side : Side
  orderType : OrderKind
  price : Option ℚ
  force : OrderForce
  tradeSide : Option TradeSide
  clientOid : ℕ
deriving DecidableEq, Repr

/-- The scalping-config fields the merge engine reads. -/
structure MergeConfig where
  symbol : String
  maxPendingOrders : ℕ
  mergeThreshold : ℕ
  pricePrecision : ℕ
  sizePrecision : ℕ
  direction : Direction
deriving Repr

/-- `needsMerge`. -/
def needsMerge (cfg : MergeConfig) (st : TrackerState) : Bool :=
  decide ((getPendingSellOrders st).length ≥ cfg.maxPendingOrders)

/-- The JS accumulation `totalValue += price * size` over the merge set. -/
def totalValue (l : List TrackedOrder) : ℚ :=
  l.foldl (fun acc o => acc + o.price * o.size) 0

/-- The JS accumulation `totalSize += size` over the merge set. -/
def totalSizeOf (l : List TrackedOrder) : ℚ :=
  l.foldl (fun acc o => acc + o.size) 0

/-- The batch-cancel loop (chunks of at most 50): each chunk is submitted
to the exchange, whose reply partitions it; the successes are marked
cancelled in the tracker and collected.  `cancelResp` is the exchange
oracle mapping a submitted chunk to its success list. -/
def batchCancelLoop (cancelResp : List ℕ → List ℕ) (st : TrackerState) (ids : List ℕ) :
    TrackerState × List ℕ :=
  if h : ids = [] then (st, [])
  else
    let batch := ids.take 50
    let succ := cancelResp batch
    let st' := markBatchCancelled st succ
    let rec' := batchCancelLoop cancelResp st' (ids.drop 50)
    (rec'.1, succ ++ rec'.2)
termination_by ids.length
decreasing_by
  simp only [List.length_drop]
  have := List.length_pos.mpr h
  omega

/-- The ids collected by the batch-cancel loop, independent of the tracker. -/
def cancelListOf (cancelResp : List ℕ → List ℕ) (ids : List ℕ) : List ℕ :=
  if h : ids = [] then []
  else cancelResp (ids.take 50) ++ cancelListOf cancelResp (ids.drop 50)
termination_by ids.length
decreasing_by
  simp only [List.length_drop]
  have := List.length_pos.mpr h
  omega

structure MergeSuccess where
  mergedCount : ℕ
  cancelledOrderIds : List ℕ
  newOrderId : ℕ
  avgPrice : ℚ
  totalSize : ℚ
deriving Repr

inductive MergeOutcome
  | skipped (st : TrackerState)
  | mergeFailedNoCancels (st : TrackerState)
  | placed (st : TrackerState) (req : PlaceOrderParams) (res : MergeSuccess)
  | placeFailed (st : TrackerState) (req : PlaceOrderParams)
deriving Repr

/-- `mergeSellOrders`: select the `mergeThreshold` oldest pending sells,
compute the size-weighted average price and total size (rounded via
toFixed), batch-cancel in chunks of 50, then — if at least one cancel
succeeded — place one post-only close sell at the averaged price/size and
track it.  `placeResp` is the exchange's reply to the placement (`none`
models a throw); `newClientOid` stands for the generated client oid. -/
def mergeSellOrders (cfg : MergeConfig) (st : TrackerState)
    (cancelResp : List ℕ → List ℕ) (placeResp : Option ℕ)
    (newClientOid : ℕ) (now : ℕ) : MergeOutcome :=
  let pendingSells := getPendingSellOrders st
  if pendingSells.length < cfg.mergeThreshold then MergeOutcome.skipped st
  else
    let toMerge := pendingSells.take cfg.mergeThreshold
    let tv := totalValue toMerge
    let ts := totalSizeOf toMerge
    let avgPrice := if ts > 0 then tv / ts else 0
    let avgPriceStr := jsToFixed avgPrice cfg.pricePrecision
    let totalSizeStr := jsToFixed ts cfg.sizePrecision
    let ids := toMerge.map (fun o => o.orderId)
    let cancelled := batchCancelLoop cancelResp st ids
    if cancelled.2.isEmpty then MergeOutcome.mergeFailedNoCancels cancelled.1
    else
      let req : PlaceOrderParams :=
        { symbol := cfg.symbol
          size := totalSizeStr
          side := Side.sell
          orderType := OrderKind.limit
          price := some avgPriceStr
          force := OrderForce.post_only
          tradeSide := some TradeSide.closeSide
          clientOid := newClientOid }
      match placeResp with
      | none => MergeOutcome.placeFailed cancelled.1 req
      | some newId =>
        let newOrder : TrackedOrder :=
          { orderId := newId
            clientOid := newClientOid
            side := Side.sell
            price := avgPriceStr
            size := totalSizeStr
            status := OrderStatus.pending
            linkedOrderId := none
            direction := cfg.direction
            createdAt := now
            filledAt := none }
        MergeOutcome.placed (addOrder cancelled.1 newOrder) req
          { mergedCount := cancelled.2.length
            cancelledOrderIds := cancelled.2
            newOrderId := newId
            avgPrice := avgPriceStr
            totalSize := totalSizeStr }

/-- The `mergeThreshold` oldest pending sells (the merge set). -/
def mergeSet (cfg : MergeConfig) (st : TrackerState) : List TrackedOrder :=
  (getPendingSellOrders st).take cfg.mergeThreshold

/-- The ids collected over the merge set's batch cancellations. -/
def mergeCancelledIds (cfg : MergeConfig) (st : TrackerState)
    (cancelResp : List ℕ → List ℕ) : List ℕ :=
  cancelListOf cancelResp ((mergeSet cfg st).map (fun o => o.orderId))

/-- The merged order's price: size-weighted average rounded at
pricePrecision. -/
def mergeAvgPrice (cfg : MergeConfig) (st : TrackerState) : ℚ :=
  jsToFixed
    (if totalSizeOf (mergeSet cfg st) > 0 then
      totalValue (mergeSet cfg st) / totalSizeOf (mergeSet cfg st)
    else 0)
    cfg.pricePrecision

/-- The merged order's size: total size rounded at sizePrecision. -/
def mergeTotalSize (cfg : MergeConfig) (st : TrackerState) : ℚ :=
  jsToFixed (totalSizeOf (mergeSet cfg st)) cfg.sizePrecision

/-- A pending sell at price 100.1, size 1. -/
def mSell1 : TrackedOrder :=
  { orderId := 1, clientOid := 11, side := Side.sell, price := 1001/10, size := 1
    status := OrderStatus.pending, linkedOrderId := none, direction := Direction.long
    createdAt := 100, filledAt := none }

/-- A pending sell at price 100.3, size 2. -/
def mSell2 : TrackedOrder :=
  { orderId := 2, clientOid := 22, side := Side.sell, price := 1003/10, size := 2
    status := OrderStatus.pending, linkedOrderId := none, direction := Direction.long
    createdAt := 200, filledAt := none }

/-- A tracker holding the two pending sells, oldest first. -/
def mergeStSample : TrackerState :=
  { orders := [mSell1, mSell2], activeBuyOrderId := none }

/-- A scalping config with mergeThreshold 2. -/
def mergeCfgSample : MergeConfig :=
  { symbol := "BTCUSDT", maxPendingOrders := 3, mergeThreshold := 2
    pricePrecision := 1, sizePrecision := 4, direction := Direction.long }

/-! ## Loop B fill reconciler (scalping-strategy.engine.ts, runLoopB) -/

/-- The `state` field of an order-detail reply, as the reconciler
classifies it: `filled`, `live`, partially filled, or anything else
(cancelled and the other terminal states land in the else branch). -/
inductive DetailState
  | filled
  | live
  | partFilled
  | otherTerminal
deriving DecidableEq, Repr

/-- The engine fields Loop B's reconcile step mutates besides the tracker. -/
structure EngineAux where
  lastBuyCancelledAt : ℕ
  consecutivePostOnlyCancels : ℕ
deriving DecidableEq, Repr

/-- One iteration of Loop B's disappeared-order loop: look up the detail
(`none` = the call threw → skip, re-examined next tick), and dispatch on
the returned state: filled → `confirmFilled` (+ counter reset on a buy);
live / partially_filled → query lag, do nothing; anything else →
`markExchangeCancelled` (+ cancel bookkeeping on a buy). -/
def processDisappeared (st : TrackerState) (eng : EngineAux) (snapshot : TrackedOrder)
    (lookup : Option DetailState) (now : ℕ) : TrackerState × EngineAux :=
  match lookup with
  | none => (st, eng)
  | some DetailState.filled =>
    let r := confirmFilled st snapshot.orderId now
    match r.2 with
    | some confirmed =>
      if confirmed.side = Side.buy then
        (r.1, { eng with consecutivePostOnlyCancels := 0 })
      else (r.1, eng)
    | none => (r.1, eng)
  | some DetailState.live => (st, eng)
  | some DetailState.partFilled => (st, eng)
  | some DetailState.otherTerminal =>
    let st' := markExchangeCancelled st snapshot.orderId
    if snapshot.side = Side.buy then
      (st', { lastBuyCancelledAt := now
              consecutivePostOnlyCancels := eng.consecutivePostOnlyCancels + 1 })
    else (st', eng)

/-- The reconcile phase of `runLoopB`: find the locally-pending orders
absent from the exchange snapshot, then process each with its detail
lookup. -/
def runLoopBReconcile (st : TrackerState) (eng : EngineAux)
    (exchangePendingIds : List ℕ) (lookup : ℕ → Option DetailState) (now : ℕ) :
    TrackerState × EngineAux :=
  (findDisappearedOrders st exchangePendingIds).foldl
    (fun acc o => processDisappeared acc.1 acc.2 o (lookup o.orderId) now) (st, eng)

/-- A pending buy used for the C1 witness. -/
def c1Order : TrackedOrder :=
  { orderId := 3, clientOid := 30, side := Side.buy, price := 1, size := 1
    status := OrderStatus.pending, linkedOrderId := none, direction := Direction.long
    createdAt := 5, filledAt := none }

/-- A tracker holding the pending buy as active. -/
def c1St : TrackerState := { orders := [c1Order], activeBuyOrderId := some 3 }

/-! ## Theorems -/

/-- C10: in the GridLevelManager, every level whose state is `empty` has
`buyOrderId = null` and `sellOrderId = null`; this holds after construction
(`calculateLevels`) and is preserved by every `updateLevelState` call, so
`getPendingOrderIds` never reports an order id belonging to an empty level. -/
theorem c10_empty_levels_hold_no_ids (cfg : GridManagerConfig) (geomPow : ℕ → ℚ)
    (levels : List GridLevel) (index : ℕ) (state : GridLevelState) (orderId : Option ℕ)
    (hinv : emptyLevelInv levels) :
    emptyLevelInv (calculateLevels cfg geomPow)
    ∧ emptyLevelInv (updateLevelState levels index state orderId)
    ∧ (∀ l ∈ levels, l.state = GridLevelState.empty →
        ∀ id ∈ getPendingOrderIds levels, l.buyOrderId ≠ some id ∧ l.sellOrderId ≠ some id) := by
  refine ⟨?_, ?_, ?_⟩
  · intro l hl _
    simp only [calculateLevels, List.mem_map] at hl
    obtain ⟨i, _, rfl⟩ := hl
    exact ⟨rfl, rfl⟩
  · intro l hl hstate
    unfold updateLevelState at hl
    cases hget : levels.get? index with
    | none => rw [hget] at hl; exact hinv l hl hstate
    | some level =>
      rw [hget] at hl
      rcases List.mem_or_eq_of_mem_set hl with hmem | heq
      · exact hinv l hmem hstate
      · subst heq
        cases state <;> cases orderId <;>
          simp_all [updLevelFields]
  · intro l hl hstate id _
    obtain ⟨h1, h2⟩ := hinv l hl hstate
    rw [h1, h2]
    exact ⟨by simp, by simp⟩

/-- Witness for C10 at concrete inputs. -/
theorem c10_empty_levels_hold_no_ids_witness :
    emptyLevelInv (calculateLevels sampleGridCfg (fun _ => 1))
    ∧ emptyLevelInv (updateLevelState sampleLevels 0 GridLevelState.buy_pending (some 5))
    ∧ (∀ l ∈ sampleLevels, l.state = GridLevelState.empty →
        ∀ id ∈ getPendingOrderIds sampleLevels, l.buyOrderId ≠ some id ∧ l.sellOrderId ≠ some id) :=
  c10_empty_levels_hold_no_ids sampleGridCfg (fun _ => 1) sampleLevels 0
    GridLevelState.buy_pending (some 5) (by decide)

/-- Counterexample to C2: with dailyPnl = −100.5 and maxDailyLoss = 100,
the first `checkCanTrade` denies for daily loss and arms
`coolingUntil = now + 60000`; but at `now = coolingUntil` the NEXT call
does NOT allow trading again: the persisting daily PnL re-fires the
daily-loss rule, denies, and arms a fresh cooldown. -/
theorem c2_counterexample :
    (checkCanTrade c2Cfg c2State 1000 0).2 =
      { canTrade := false, reason := some DenyReason.dailyLoss }
    ∧ (checkCanTrade c2Cfg c2State 1000 0).1.coolingUntil = some 61000
    ∧ (checkCanTrade c2Cfg (checkCanTrade c2Cfg c2State 1000 0).1 61000 0).2 =
      { canTrade := false, reason := some DenyReason.dailyLoss }
    ∧ (checkCanTrade c2Cfg (checkCanTrade c2Cfg c2State 1000 0).1 61000 0).1.coolingUntil =
      some 121000 := by
  norm_num [c2Cfg, c2State, recordPnl, riskInit, checkCanTrade, riskChecksAfterCooldown,
    triggerCooldown, todayKey, msPerDay, jsAbs]

/-- C2 amended: a daily-loss denial arms `coolingUntil = now + cooldownMs`
and every call before `coolingUntil` denies with the cooldown reason; once
`coolingUntil ≤ now` the next call clears the cooldown but re-evaluates the
daily-loss rule on the persisting daily PnL, so (within the same UTC day)
it denies again with the daily-loss reason and arms a fresh cooldown;
trading resumes only after the UTC day rolls over or the daily PnL rises
above −maxDailyLoss. -/
theorem c2_daily_loss_cooldown (cfg : RiskConfig) (st : RiskState) (now : ℕ) (pos : ℚ)
    (hday : todayKey now = st.dailyResetDate)
    (hneg : st.dailyPnl < 0) (hmax : jsAbs st.dailyPnl ≥ cfg.maxDailyLossUsdt) :
    (st.coolingUntil = none →
      checkCanTrade cfg st now pos =
        ({ st with coolingUntil := some (now + cfg.cooldownMs) },
         { canTrade := false, reason := some DenyReason.dailyLoss }))
    ∧ (∀ t, st.coolingUntil = some t → now < t →
        checkCanTrade cfg st now pos =
          (st, { canTrade := false, reason := some DenyReason.cooldown }))
    ∧ (∀ t, st.coolingUntil = some t → t ≤ now →
        checkCanTrade cfg st now pos =
          ({ st with coolingUntil := some (now + cfg.cooldownMs) },
           { canTrade := false, reason := some DenyReason.dailyLoss })) := by
  obtain ⟨dp, pe, ce, dr, cu, tt, wt, lt', tw, tl⟩ := st
  simp only at hday hneg hmax
  refine ⟨?_, ?_, ?_⟩
  · intro hnone
    simp only at hnone
    subst hnone
    unfold checkCanTrade
    rw [if_neg (by simp [hday])]
    simp only [riskChecksAfterCooldown]
    rw [if_pos ⟨hneg, hmax⟩]
    rfl
  · intro t ht hlt
    simp only at ht
    subst ht
    unfold checkCanTrade
    rw [if_neg (by simp [hday])]
    simp only
    rw [if_pos hlt]
  · intro t ht hge
    simp only at ht
    subst ht
    unfold checkCanTrade
    rw [if_neg (by simp [hday])]
    simp only
    rw [if_neg (by omega)]
    simp only [riskChecksAfterCooldown]
    rw [if_pos ⟨hneg, hmax⟩]
    rfl

/-- Witness for the amended C2 at the concrete scenario state. -/
theorem c2_daily_loss_cooldown_witness :
    ((c2State.coolingUntil = none →
      checkCanTrade c2Cfg c2State 1000 0 =
        ({ c2State with coolingUntil := some 61000 },
         { canTrade := false, reason := some DenyReason.dailyLoss }))
    ∧ (∀ t, c2State.coolingUntil = some t → 1000 < t →
        checkCanTrade c2Cfg c2State 1000 0 =
          (c2State, { canTrade := false, reason := some DenyReason.cooldown }))
    ∧ (∀ t, c2State.coolingUntil = some t → t ≤ 1000 →
        checkCanTrade c2Cfg c2State 1000 0 =
          ({ c2State with coolingUntil := some 61000 },
           { canTrade := false, reason := some DenyReason.dailyLoss }))) :=
  c2_daily_loss_cooldown c2Cfg c2State 1000 0
    (by norm_num [c2State, recordPnl, riskInit, todayKey, msPerDay, jsAbs])
    (by norm_num [c2State, recordPnl, riskInit, jsAbs])
    (by norm_num [c2Cfg, c2State, recordPnl, riskInit, jsAbs])

/-- Counterexample to C4: at notional 16, price 1000, volumePlace 2,
minTradeNum 0.01, the quotient is 0.016; the code's `toFixed` rounds to the
NEAREST place and returns 0.02, while the spec's round_down yields 0.01. -/
theorem c4_counterexample :
    calculateSize 16 1000 2 (some (1/100)) = some (1/50)
    ∧ calculateSizeSpec 16 1000 2 (some (1/100)) = some (1/100)
    ∧ ((1:ℚ)/50) ≠ ((1:ℚ)/100) := by
  refine ⟨?_, ?_, by norm_num⟩
  · norm_num [calculateSize, jsToFixed, jsRound]
  · norm_num [calculateSizeSpec, roundDown]

/-- C4 amended: the size is `notional/price` rounded to the NEAREST value
at `volumePlace` decimals (JS toFixed), not rounded down; placement is
skipped when the RAW quotient is below `10^-volumePlace` or the rounded
result is below `minTradeNum`; a rounded result of exactly `minTradeNum`
succeeds, and a rounded result of `minTradeNum − 10^-volumePlace` skips. -/
theorem c4_size_calculation (amountUsdt price : ℚ) (precision : ℕ) (m : ℚ)
    (hp : 0 < price) :
    (1 / 10 ^ precision ≤ amountUsdt / price →
      m ≤ jsToFixed (amountUsdt / price) precision →
      calculateSize amountUsdt price precision (some m) =
        some (jsToFixed (amountUsdt / price) precision))
    ∧ (amountUsdt / price < 1 / 10 ^ precision →
        calculateSize amountUsdt price precision (some m) = none)
    ∧ (jsToFixed (amountUsdt / price) precision < m →
        calculateSize amountUsdt price precision (some m) = none)
    ∧ (jsToFixed (amountUsdt / price) precision = m →
        1 / 10 ^ precision ≤ amountUsdt / price →
        calculateSize amountUsdt price precision (some m) = some m)
    ∧ (jsToFixed (amountUsdt / price) precision = m - 1 / 10 ^ precision →
        calculateSize amountUsdt price precision (some m) = none) := by
  have htick : (0:ℚ) < 1 / 10 ^ precision := by positivity
  simp only [calculateSize, if_neg (not_le.mpr hp)]
  refine ⟨?_, ?_, ?_, ?_, ?_⟩
  · intro h1 h2
    rw [if_neg (not_lt.mpr h1), if_neg (not_lt.mpr h2)]
  · intro h
    rw [if_pos h]
  · intro h
    by_cases hraw : amountUsdt / price < 1 / 10 ^ precision
    · rw [if_pos hraw]
    · rw [if_neg hraw, if_pos h]
  · intro h h1
    rw [if_neg (not_lt.mpr h1), if_neg (by rw [h]; exact lt_irrefl m), h]
  · intro h
    by_cases hraw : amountUsdt / price < 1 / 10 ^ precision
    · rw [if_pos hraw]
    · rw [if_neg hraw, if_pos (by rw [h]; linarith)]

/-- Witness for the amended C4 at notional 16, price 1000, volumePlace 2,
minTradeNum 0.01. -/
theorem c4_size_calculation_witness :
    ((1:ℚ) / 10 ^ 2 ≤ (16:ℚ) / 1000 →
      (1:ℚ)/100 ≤ jsToFixed ((16:ℚ) / 1000) 2 →
      calculateSize 16 1000 2 (some ((1:ℚ)/100)) = some (jsToFixed ((16:ℚ) / 1000) 2))
    ∧ ((16:ℚ) / 1000 < 1 / 10 ^ 2 →
        calculateSize 16 1000 2 (some ((1:ℚ)/100)) = none)
    ∧ (jsToFixed ((16:ℚ) / 1000) 2 < (1:ℚ)/100 →
        calculateSize 16 1000 2 (some ((1:ℚ)/100)) = none)
    ∧ (jsToFixed ((16:ℚ) / 1000) 2 = (1:ℚ)/100 →
        (1:ℚ) / 10 ^ 2 ≤ (16:ℚ) / 1000 →
        calculateSize 16 1000 2 (some ((1:ℚ)/100)) = some ((1:ℚ)/100))
    ∧ (jsToFixed ((16:ℚ) / 1000) 2 = (1:ℚ)/100 - 1 / 10 ^ 2 →
        calculateSize 16 1000 2 (some ((1:ℚ)/100)) = none) :=
  c4_size_calculation 16 1000 2 ((1:ℚ)/100) (by norm_num)

/-- Counterexample to C7: with an empty memory tier and a DB row fetched
from the exchange at epoch 0, a `getSpec` call two hours later serves the
DB entry although its exchange fetch is 2 h old — `loadFromDb` applies no
`fetched_at` filter — and even re-stamps it into memory as fresh. -/
theorem c7_counterexample :
    ((getSpec none (some { spec := sampleSpec, fetchedAt := 0 }) none 7200000).1.map
        (fun r => r.exchangeFetchedAt)) = some 0
    ∧ ((getSpec none (some { spec := sampleSpec, fetchedAt := 0 }) none 7200000).1.map
        (fun r => r.source)) = some SpecSource.dbTier
    ∧ ¬ (7200000 - 0 ≤ CACHE_TTL_MS)
    ∧ ((getSpec none (some { spec := sampleSpec, fetchedAt := 0 }) none 7200000).2.1.map
        (fun e => e.memFetchedAt)) = some 7200000 := by
  refine ⟨rfl, rfl, by decide, rfl⟩

/-- C7 amended: only the memory tier enforces the one-hour bound, and the
bound is relative to the time the entry entered the memory map, not the
exchange fetch: a memory-tier hit satisfies `now − memFetchedAt < 1h`; an
API-tier result was fetched at `now`; a DB-tier result carries whatever
`fetched_at` the row has — no freshness bound — and is re-stamped into
memory with `fetchedAt := now`. -/
theorem c7_getSpec_freshness (mem : Option MemCacheEntry) (db : Option DbSpecRow)
    (api : Option InstrumentSpecInfo) (now : ℕ) :
    (∀ r, (getSpec mem db api now).1 = some r → r.source = SpecSource.memoryTier →
      ∃ e, mem = some e ∧ now - e.memFetchedAt < CACHE_TTL_MS
        ∧ r.exchangeFetchedAt = e.exchangeFetchedAt)
    ∧ (∀ r, (getSpec mem db api now).1 = some r → r.source = SpecSource.apiTier →
        r.exchangeFetchedAt = now)
    ∧ (∀ r, (getSpec mem db api now).1 = some r → r.source = SpecSource.dbTier →
        ∃ row, db = some row ∧ r.exchangeFetchedAt = row.fetchedAt
          ∧ (getSpec mem db api now).2.1 =
            some { spec := row.spec, exchangeFetchedAt := row.fetchedAt,
                   memFetchedAt := now }) := by
  have tail : ∀ r : GetSpecResult, (getSpecDbOrApi mem db api now).1 = some r →
      (r.source = SpecSource.memoryTier → False)
      ∧ (r.source = SpecSource.apiTier → r.exchangeFetchedAt = now)
      ∧ (r.source = SpecSource.dbTier →
          ∃ row, db = some row ∧ r.exchangeFetchedAt = row.fetchedAt
            ∧ (getSpecDbOrApi mem db api now).2.1 =
              some { spec := row.spec, exchangeFetchedAt := row.fetchedAt,
                     memFetchedAt := now }) := by
    intro r hr
    cases db with
    | some row =>
      simp only [getSpecDbOrApi, Option.some.injEq] at hr
      subst hr
      exact ⟨fun h => by simp at h, fun h => by simp at h, fun _ => ⟨row, rfl, rfl, rfl⟩⟩
    | none =>
      cases api with
      | none => simp [getSpecDbOrApi] at hr
      | some s =>
        simp only [getSpecDbOrApi, Option.some.injEq] at hr
        subst hr
        exact ⟨fun h => by simp at h, fun _ => rfl, fun h => by simp at h⟩
  cases mem with
  | none =>
    exact ⟨fun r hr h => ((tail r hr).1 h).elim,
           fun r hr h => (tail r hr).2.1 h,
           fun r hr h => (tail r hr).2.2 h⟩
  | some e =>
    by_cases httl : now - e.memFetchedAt < CACHE_TTL_MS
    · have hr' : getSpec (some e) db api now =
          (some { spec := e.spec, exchangeFetchedAt := e.exchangeFetchedAt,
                  source := SpecSource.memoryTier }, some e, db) := by
        simp [getSpec, httl]
      refine ⟨?_, ?_, ?_⟩ <;> intro r hr hsrc <;> rw [hr'] at hr <;>
        simp only [Option.some.injEq] at hr <;> subst hr
      · exact ⟨e, rfl, httl, rfl⟩
      · simp at hsrc
      · simp at hsrc
    · have hEq : getSpec (some e) db api now = getSpecDbOrApi (some e) db api now := by
        simp [getSpec, httl]
      rw [hEq]
      exact ⟨fun r hr h => ((tail r hr).1 h).elim,
             fun r hr h => (tail r hr).2.1 h,
             fun r hr h => (tail r hr).2.2 h⟩

/-- Witness for the amended C7: the stale-DB-row scenario of the
counterexample, served through the DB tier. -/
theorem c7_getSpec_freshness_witness :
    (∀ r, (getSpec none (some { spec := sampleSpec, fetchedAt := 0 }) none 7200000).1 = some r →
        r.source = SpecSource.memoryTier →
      ∃ e, (none : Option MemCacheEntry) = some e ∧ 7200000 - e.memFetchedAt < CACHE_TTL_MS
        ∧ r.exchangeFetchedAt = e.exchangeFetchedAt)
    ∧ (∀ r, (getSpec none (some { spec := sampleSpec, fetchedAt := 0 }) none 7200000).1 = some r →
        r.source = SpecSource.apiTier → r.exchangeFetchedAt = 7200000)
    ∧ (∀ r, (getSpec none (some { spec := sampleSpec, fetchedAt := 0 }) none 7200000).1 = some r →
        r.source = SpecSource.dbTier →
        ∃ row, (some { spec := sampleSpec, fetchedAt := 0 } : Option DbSpecRow) = some row
          ∧ r.exchangeFetchedAt = row.fetchedAt
          ∧ (getSpec none (some { spec := sampleSpec, fetchedAt := 0 }) none 7200000).2.1 =
            some { spec := row.spec, exchangeFetchedAt := row.fetchedAt,
                   memFetchedAt := 7200000 }) :=
  c7_getSpec_freshness none (some { spec := sampleSpec, fetchedAt := 0 }) none 7200000

/-- Counterexample to C8: two `calculate` calls with identical inputs,
instrument spec, ticker snapshot and balance do NOT return identical
fullConfig values: `instanceId` embeds `Date.now()`, so calls at different
milliseconds differ in that field. -/
theorem c8_counterexample :
    calculateScalping sampleAutoInput sampleSpec sampleTicker 1000 1000 ≠
      calculateScalping sampleAutoInput sampleSpec sampleTicker 1000 2000
    ∧ (calculateScalping sampleAutoInput sampleSpec sampleTicker 1000 1000).instanceId =
      "auto-BTCUSDT-1000"
    ∧ (calculateScalping sampleAutoInput sampleSpec sampleTicker 1000 2000).instanceId =
      "auto-BTCUSDT-2000" := by
  refine ⟨fun h => ?_, rfl, rfl⟩
  have hid := congrArg ScalpingFullConfig.instanceId h
  exact absurd hid (by decide)

/-- C8 amended: auto-calc is deterministic MODULO `instanceId`: two calls
with the same inputs, instrument spec, ticker snapshot and balance agree on
every field except `instanceId`, which is `auto-<symbol>-<Date.now()>` and
varies with the call time, for both the scalping and the grid variant. -/
theorem c8_deterministic_modulo_instanceId (input : SimpleConfigInput)
    (spec : InstrumentSpecInfo) (ticker : TickerInfo) (balance : ℚ) (now now' : ℕ) :
    scalpingConfigModuloId (calculateScalping input spec ticker balance now) =
      scalpingConfigModuloId (calculateScalping input spec ticker balance now')
    ∧ gridConfigModuloId (calculateGrid input spec ticker balance now) =
      gridConfigModuloId (calculateGrid input spec ticker balance now')
    ∧ (calculateScalping input spec ticker balance now).instanceId =
      autoInstanceId input.symbol now
    ∧ (calculateGrid input spec ticker balance now).instanceId =
      autoInstanceId input.symbol now :=
  ⟨rfl, rfl, rfl, rfl⟩

/-! ## Shared lemmas about the tracker map -/

lemma find?_id_of_nodup (l : List TrackedOrder) (o : TrackedOrder)
    (hnd : (l.map (fun x => x.orderId)).Nodup) (ho : o ∈ l) :
    l.find? (fun x => x.orderId == o.orderId) = some o := by
  induction l with
  | nil => cases ho
  | cons a t ih =>
    simp only [List.map_cons, List.nodup_cons] at hnd
    rcases List.mem_cons.mp ho with rfl | hmem
    · rw [List.find?_cons_of_pos _ (by simp)]
    · have hne : a.orderId ≠ o.orderId := by
        intro h
        exact hnd.1 (h ▸ List.mem_map_of_mem _ hmem)
      rw [List.find?_cons_of_neg _ (by simp [hne])]
      exact ih hnd.2 hmem

lemma find?_updateStored_ne (l : List TrackedOrder) (oid' : ℕ)
    (f : TrackedOrder → TrackedOrder) (hf : ∀ x, (f x).orderId = x.orderId)
    (oid : ℕ) (hne : oid ≠ oid') :
    (updateStored l oid' f).find? (fun x => x.orderId == oid) =
      l.find? (fun x => x.orderId == oid) := by
  induction l with
  | nil => rfl
  | cons a t ih =>
    simp only [updateStored, List.map_cons] at ih ⊢
    by_cases ha : a.orderId = oid'
    · rw [if_pos (by simp [ha])]
      rw [List.find?_cons_of_neg _ (by simp [hf, ha, Ne.symm hne]),
          List.find?_cons_of_neg _ (by simp [ha, Ne.symm hne])]
      exact ih
    · rw [if_neg (by simp [ha])]
      by_cases hp : a.orderId = oid
      · rw [List.find?_cons_of_pos _ (by simp [hp]),
            List.find?_cons_of_pos _ (by simp [hp])]
      · rw [List.find?_cons_of_neg _ (by simp [hp]),
            List.find?_cons_of_neg _ (by simp [hp])]
        exact ih

lemma find?_updateStored_eq (l : List TrackedOrder) (oid : ℕ)
    (f : TrackedOrder → TrackedOrder) (hf : ∀ x, (f x).orderId = x.orderId)
    (o : TrackedOrder) (hfind : l.find? (fun x => x.orderId == oid) = some o) :
    (updateStored l oid f).find? (fun x => x.orderId == oid) = some (f o) := by
  induction l with
  | nil => simp [List.find?] at hfind
  | cons a t ih =>
    simp only [updateStored, List.map_cons] at ih ⊢
    by_cases hp : a.orderId = oid
    · rw [List.find?_cons_of_pos _ (by simp [hp])] at hfind
      rw [if_pos (by simp [hp])]
      rw [List.find?_cons_of_pos _ (by simp [hf, hp])]
      simp only [Option.some.injEq] at hfind ⊢
      rw [hfind]
    · rw [List.find?_cons_of_neg _ (by simp [hp])] at hfind
      rw [if_neg (by simp [hp])]
      rw [List.find?_cons_of_neg _ (by simp [hp])]
      exact ih hfind

/-- Counterexample to C5: `markCancelled` (and hence `markBatchCancelled`)
has no pending guard and rewrites a FILLED order to cancelled; the grid
engine's `updateTrackedOrderStatus` likewise overwrites a terminal status
unconditionally. -/
theorem c5_counterexample :
    ((getOrder (markCancelled c5St 7) 7).map (fun o => o.status) =
      some OrderStatus.cancelled)
    ∧ ((getOrder (markBatchCancelled c5St [7]) 7).map (fun o => o.status) =
      some OrderStatus.cancelled)
    ∧ ((updateTrackedOrderStatus [sampleFilledOrder] 7 OrderStatus.cancelled 99).map
        (fun o => o.status) = [OrderStatus.cancelled])
    ∧ OrderStatus.cancelled ≠ OrderStatus.filled := by
  refine ⟨rfl, rfl, rfl, by decide⟩

/-- C5 amended: of the five operations, only `confirmFilled` and
`markExchangeCancelled` guard on pending and therefore never change a
terminal order; `markCancelled`, `markBatchCancelled` and the grid engine's
`updateTrackedOrderStatus` overwrite the status unconditionally, so a
terminal status CAN regress through them.  This theorem proves the
preserved half: a non-pending order is untouched by `confirmFilled` and
`markExchangeCancelled`, whatever order id they target. -/
theorem c5_terminal_guarded_ops (st : TrackerState) (oid now : ℕ) (o : TrackedOrder)
    (hnd : (st.orders.map (fun x => x.orderId)).Nodup) (ho : o ∈ st.orders)
    (hterm : o.status ≠ OrderStatus.pending) :
    getOrder (confirmFilled st oid now).1 o.orderId = some o
    ∧ getOrder (markExchangeCancelled st oid) o.orderId = some o := by
  have hget : getOrder st o.orderId = some o := find?_id_of_nodup st.orders o hnd ho
  constructor
  · unfold confirmFilled
    by_cases hid : oid = o.orderId
    · subst hid
      rw [hget]
      dsimp only
      rw [if_pos hterm]
      exact hget
    · cases hgo : getOrder st oid with
      | none => exact hget
      | some o2 =>
        dsimp only
        by_cases hp : o2.status ≠ OrderStatus.pending
        · rw [if_pos hp]
          exact hget
        · rw [if_neg hp]
          exact (find?_updateStored_ne st.orders oid
            (fun x => { x with status := OrderStatus.filled, filledAt := some now })
            (fun x => rfl) o.orderId (fun h => hid h.symm)).trans hget
  · unfold markExchangeCancelled
    by_cases hid : oid = o.orderId
    · subst hid
      rw [hget]
      dsimp only
      rw [if_neg hterm]
      exact hget
    · cases hgo : getOrder st oid with
      | none => exact hget
      | some o2 =>
        dsimp only
        by_cases hp : o2.status = OrderStatus.pending
        · rw [if_pos hp]
          exact (find?_updateStored_ne st.orders oid
            (fun x => { x with status := OrderStatus.cancelled })
            (fun x => rfl) o.orderId (fun h => hid h.symm)).trans hget
        · rw [if_neg hp]
          exact hget

/-- Witness for the amended C5 on the one-filled-order tracker. -/
theorem c5_terminal_guarded_ops_witness :
    getOrder (confirmFilled c5St 7 99).1 sampleFilledOrder.orderId = some sampleFilledOrder
    ∧ getOrder (markExchangeCancelled c5St 7) sampleFilledOrder.orderId =
      some sampleFilledOrder :=
  c5_terminal_guarded_ops c5St 7 99 sampleFilledOrder (by decide)
    (List.mem_singleton.mpr rfl) (by decide)

/-- Counterexample to C6: after the Loop A cancel-failure path, TWO tracked
buy orders are pending at once, refuting the at-most-one-pending-buy bound
(multi-order recovery from persistence violates it the same way). -/
theorem c6_counterexample :
    pendingBuyCount (applyOps TrackerState.init c6Trace) = 2
    ∧ ¬ (pendingBuyCount (applyOps TrackerState.init c6Trace) ≤ 1)
    ∧ freshTrace TrackerState.init c6Trace = true := by
  refine ⟨by decide, by decide, by decide⟩

lemma nodup_updateStored (l : List TrackedOrder) (oid : ℕ)
    (f : TrackedOrder → TrackedOrder) (hf : ∀ x, (f x).orderId = x.orderId)
    (hnd : (l.map (fun x => x.orderId)).Nodup) :
    ((updateStored l oid f).map (fun x => x.orderId)).Nodup := by
  have heq : (updateStored l oid f).map (fun x => x.orderId) =
      l.map (fun x => x.orderId) := by
    unfold updateStored
    rw [List.map_map]
    apply List.map_congr_left
    intro x _
    by_cases h : x.orderId = oid <;> simp [h, hf]
  rw [heq]
  exact hnd

lemma active_witness_updateStored (l : List TrackedOrder) (oid a : ℕ)
    (f : TrackedOrder → TrackedOrder) (_hf : ∀ x, (f x).orderId = x.orderId)
    (hne : a ≠ oid)
    (hw : ∃ o ∈ l, o.orderId = a ∧ o.side = Side.buy ∧ o.status = OrderStatus.pending) :
    ∃ o ∈ updateStored l oid f,
      o.orderId = a ∧ o.side = Side.buy ∧ o.status = OrderStatus.pending := by
  obtain ⟨o, hol, hid, hside, hstat⟩ := hw
  refine ⟨o, ?_, hid, hside, hstat⟩
  have hfix : (if o.orderId == oid then f o else o) = o := by
    rw [if_neg (by simp [hid, hne])]
  exact hfix ▸ List.mem_map_of_mem _ hol

lemma trackerInv_addOrder (st : TrackerState) (o : TrackedOrder)
    (hinv : trackerInv st)
    (hfresh : st.orders.any (fun x => x.orderId == o.orderId) = false) :
    trackerInv (addOrder st o) := by
  obtain ⟨hnd, hact⟩ := hinv
  have hnotin : o.orderId ∉ st.orders.map (fun x => x.orderId) := by
    intro hmem
    obtain ⟨x, hx, hxid⟩ := List.mem_map.mp hmem
    have := List.any_eq_false.mp hfresh x hx
    simp [hxid] at this
  have hmapset : mapSet st.orders o = st.orders ++ [o] := by
    unfold mapSet
    rw [if_neg (by simp [hfresh])]
  constructor
  · show ((mapSet st.orders o).map (fun x => x.orderId)).Nodup
    rw [hmapset, List.map_append, List.map_singleton, List.nodup_append]
    refine ⟨hnd, List.nodup_singleton _, ?_⟩
    intro a ha hb
    rw [List.mem_singleton] at hb
    exact hnotin (hb ▸ ha)
  · intro oid hoid
    by_cases hbp : o.side = Side.buy ∧ o.status = OrderStatus.pending
    · have : some o.orderId = some oid := by
        simpa [addOrder, if_pos hbp] using hoid
      injection this with h
      exact ⟨o, by simp [addOrder, hmapset], h, hbp.1, hbp.2⟩
    · have : st.activeBuyOrderId = some oid := by
        simpa [addOrder, if_neg hbp] using hoid
      obtain ⟨ow, hw, hid, hside, hstat⟩ := hact oid this
      exact ⟨ow, by simp [addOrder, hmapset]; exact Or.inl hw, hid, hside, hstat⟩

lemma trackerInv_confirmFilled (st : TrackerState) (oid now : ℕ)
    (hinv : trackerInv st) : trackerInv (confirmFilled st oid now).1 := by
  obtain ⟨hnd, hact⟩ := hinv
  unfold confirmFilled
  cases hgo : getOrder st oid with
  | none => exact ⟨hnd, hact⟩
  | some o2 =>
    dsimp only
    by_cases hp : o2.status ≠ OrderStatus.pending
    · rw [if_pos hp]
      exact ⟨hnd, hact⟩
    · rw [if_neg hp]
      push_neg at hp
      constructor
      · exact nodup_updateStored _ _ _ (fun x => rfl) hnd
      · intro a ha
        by_cases hcond : o2.side = Side.buy ∧ st.activeBuyOrderId = some oid
        · rw [if_pos hcond] at ha
          cases ha
        · rw [if_neg hcond] at ha
          obtain ⟨ow, hw, hid, hside, hstat⟩ := hact a ha
          have hane : a ≠ oid := by
            intro h
            subst h
            have hfind := find?_id_of_nodup st.orders ow hnd hw
            rw [hid] at hfind
            have : o2 = ow := by
              have := hgo.symm.trans hfind
              injection this
            exact hcond ⟨by rw [this, hside], ha ▸ rfl⟩
          exact active_witness_updateStored st.orders oid a _ (fun x => rfl) hane
            ⟨ow, hw, hid, hside, hstat⟩

lemma trackerInv_markExchangeCancelled (st : TrackerState) (oid : ℕ)
    (hinv : trackerInv st) : trackerInv (markExchangeCancelled st oid) := by
  obtain ⟨hnd, hact⟩ := hinv
  unfold markExchangeCancelled
  cases hgo : getOrder st oid with
  | none => exact ⟨hnd, hact⟩
  | some o2 =>
    dsimp only
    by_cases hp : o2.status = OrderStatus.pending
    · rw [if_pos hp]
      constructor
      · exact nodup_updateStored _ _ _ (fun x => rfl) hnd
      · intro a ha
        by_cases hcond : st.activeBuyOrderId = some oid
        · rw [if_pos hcond] at ha
          cases ha
        · rw [if_neg hcond] at ha
          obtain ⟨ow, hw, hid, hside, hstat⟩ := hact a ha
          have hane : a ≠ oid := fun h => hcond (h ▸ ha)
          exact active_witness_updateStored st.orders oid a _ (fun x => rfl) hane
            ⟨ow, hw, hid, hside, hstat⟩
    · rw [if_neg hp]
      exact ⟨hnd, hact⟩

lemma trackerInv_markCancelled (st : TrackerState) (oid : ℕ)
    (hinv : trackerInv st) : trackerInv (markCancelled st oid) := by
  obtain ⟨hnd, hact⟩ := hinv
  unfold markCancelled
  cases hgo : getOrder st oid with
  | none => exact ⟨hnd, hact⟩
  | some o2 =>
    dsimp only
    constructor
    · exact nodup_updateStored _ _ _ (fun x => rfl) hnd
    · intro a ha
      by_cases hcond : st.activeBuyOrderId = some oid
      · rw [if_pos hcond] at ha
        cases ha
      · rw [if_neg hcond] at ha
        obtain ⟨ow, hw, hid, hside, hstat⟩ := hact a ha
        have hane : a ≠ oid := fun h => hcond (h ▸ ha)
        exact active_witness_updateStored st.orders oid a _ (fun x => rfl) hane
          ⟨ow, hw, hid, hside, hstat⟩

lemma trackerInv_markBatchCancelled (st : TrackerState) (oids : List ℕ)
    (hinv : trackerInv st) : trackerInv (markBatchCancelled st oids) := by
  induction oids generalizing st with
  | nil => exact hinv
  | cons a t ih => exact ih _ (trackerInv_markCancelled st a hinv)

lemma trackerInv_linkOrders (st : TrackerState) (b s : ℕ)
    (hinv : trackerInv st) : trackerInv (linkOrders st b s) := by
  obtain ⟨hnd, hact⟩ := hinv
  constructor
  · exact nodup_updateStored _ _ _ (fun x => rfl) hnd
  · intro a ha
    obtain ⟨ow, hw, hid, hside, hstat⟩ := hact a ha
    by_cases hab : a = b
    · subst hab
      refine ⟨{ ow with linkedOrderId := some s }, ?_, hid, hside, hstat⟩
      have : (if ow.orderId == a then
          ({ ow with linkedOrderId := some s } : TrackedOrder) else ow) =
          { ow with linkedOrderId := some s } := by
        rw [if_pos (by simp [hid])]
      exact this ▸ List.mem_map_of_mem _ hw
    · exact active_witness_updateStored st.orders b a _ (fun x => rfl) hab
        ⟨ow, hw, hid, hside, hstat⟩

lemma trackerInv_cleanup (st : TrackerState) (k : ℕ)
    (hinv : trackerInv st) : trackerInv (cleanup st k) := by
  obtain ⟨hnd, hact⟩ := hinv
  unfold cleanup
  by_cases hlen :
      ((st.orders.filter (fun o => o.status != OrderStatus.pending)).mergeSort
        (fun a b => decide (cleanupKey b ≤ cleanupKey a))).length > k
  · rw [if_pos hlen]
    constructor
    · exact ((List.filter_sublist _).map _).nodup hnd
    · intro a ha
      obtain ⟨ow, hw, hid, hside, hstat⟩ := hact a ha
      refine ⟨ow, ?_, hid, hside, hstat⟩
      rw [List.mem_filter]
      refine ⟨hw, ?_⟩
      simp only [Bool.not_eq_eq_eq_not, Bool.not_true, List.contains_eq_any_beq]
      rw [List.any_eq_false]
      intro x hx
      simp only [beq_iff_eq]
      intro hxw
      obtain ⟨y, hy, hyid⟩ := List.mem_map.mp hx
      have hydrop : y ∈ (st.orders.filter
          (fun o => o.status != OrderStatus.pending)).mergeSort
            (fun a b => decide (cleanupKey b ≤ cleanupKey a)) :=
        List.drop_subset _ _ hy
      have hyfil : y ∈ st.orders.filter (fun o => o.status != OrderStatus.pending) :=
        List.mem_mergeSort.mp hydrop
      obtain ⟨hyl, hyp⟩ := List.mem_filter.mp hyfil
      have : y = ow := List.inj_on_of_nodup_map hnd hyl hw (by rw [hyid, hxw])
      rw [this] at hyp
      simp [hstat] at hyp
  · rw [if_neg hlen]
    exact ⟨hnd, hact⟩

lemma trackerInv_applyOp (st : TrackerState) (op : TrackerOp)
    (hinv : trackerInv st) (hfresh : opFresh st op = true) :
    trackerInv (applyOp st op) := by
  cases op with
  | addOrder o =>
    apply trackerInv_addOrder st o hinv
    simpa [opFresh] using hfresh
  | confirmFilled oid now => exact trackerInv_confirmFilled st oid now hinv
  | markExchangeCancelled oid => exact trackerInv_markExchangeCancelled st oid hinv
  | markCancelled oid => exact trackerInv_markCancelled st oid hinv
  | markBatchCancelled oids => exact trackerInv_markBatchCancelled st oids hinv
  | clearActiveBuy => exact ⟨hinv.1, by intro a ha; cases ha⟩
  | linkOrders b s => exact trackerInv_linkOrders st b s hinv
  | cleanup k => exact trackerInv_cleanup st k hinv
  | clear => exact ⟨List.nodup_nil, by intro a ha; cases ha⟩

lemma trackerInv_applyOps (st : TrackerState) (ops : List TrackerOp)
    (hinv : trackerInv st) (hfresh : freshTrace st ops = true) :
    trackerInv (applyOps st ops) := by
  induction ops generalizing st with
  | nil => exact hinv
  | cons op rest ih =>
    rw [freshTrace, Bool.and_eq_true] at hfresh
    exact ih (applyOp st op) (trackerInv_applyOp st op hinv hfresh.1) hfresh.2

/-- C6 amended: the at-most-one-pending-buy bound does NOT hold (see the
counterexample); what holds in every state reachable from the empty tracker
by the operations the scalping engine performs — with fresh exchange order
ids — is that `activeBuyOrderId`, if non-null, references a pending buy in
the set (and tracked ids stay distinct). -/
theorem c6_active_buy_references_pending (ops : List TrackerOp)
    (hfresh : freshTrace TrackerState.init ops = true) :
    trackerInv (applyOps TrackerState.init ops) :=
  trackerInv_applyOps TrackerState.init ops
    ⟨List.nodup_nil, by intro a ha; cases ha⟩ hfresh

/-- Witness for the amended C6 on the cancel-failure trace. -/
theorem c6_active_buy_references_pending_witness :
    trackerInv (applyOps TrackerState.init c6Trace) :=
  c6_active_buy_references_pending c6Trace (by decide)

/-! ## Lemmas for the merge engine -/

lemma mem_updateStored_of_ne (l : List TrackedOrder) (oid : ℕ)
    (f : TrackedOrder → TrackedOrder) (o : TrackedOrder)
    (ho : o ∈ l) (hne : o.orderId ≠ oid) : o ∈ updateStored l oid f := by
  have hfix : (if o.orderId == oid then f o else o) = o := by
    rw [if_neg (by simp [hne])]
  exact hfix ▸ List.mem_map_of_mem _ ho

lemma updateStored_id_of_not_mem (l : List TrackedOrder) (oid : ℕ)
    (f : TrackedOrder → TrackedOrder) (h : ∀ y ∈ l, y.orderId ≠ oid) :
    updateStored l oid f = l := by
  induction l with
  | nil => rfl
  | cons x t ih =>
    unfold updateStored at ih ⊢
    rw [List.map_cons, if_neg (by simp [h x (List.mem_cons_self x t)]),
        ih (fun y hy => h y (List.mem_cons_of_mem x hy))]

lemma getOrder_markCancelled_ne (st : TrackerState) (a i : ℕ) (hne : i ≠ a) :
    getOrder (markCancelled st a) i = getOrder st i := by
  unfold markCancelled
  cases hgo : getOrder st a with
  | none => rfl
  | some o2 =>
    show (updateStored st.orders a _).find? _ = _
    exact find?_updateStored_ne st.orders a
      (fun x => { x with status := OrderStatus.cancelled }) (fun x => rfl) i hne

lemma length_filter_updateStored_cancel (l : List TrackedOrder) (a : ℕ)
    (hnd : (l.map (fun x => x.orderId)).Nodup)
    (o : TrackedOrder) (ho : o ∈ l) (hid : o.orderId = a)
    (hsell : isPendingSell o = true) :
    (l.filter isPendingSell).length =
      ((updateStored l a (fun x => { x with status := OrderStatus.cancelled })).filter
        isPendingSell).length + 1 := by
  induction l with
  | nil => cases ho
  | cons x t ih =>
    simp only [List.map_cons, List.nodup_cons] at hnd
    by_cases hxa : x.orderId = a
    · have hxo : x = o := by
        rcases List.mem_cons.mp ho with h | hot
        · exact h.symm
        · exfalso
          apply hnd.1
          rw [hxa, ← hid]
          exact List.mem_map_of_mem (fun y => y.orderId) hot
      subst hxo
      have ht : updateStored t a (fun y => { y with status := OrderStatus.cancelled }) = t :=
        updateStored_id_of_not_mem t a _ (fun y hy hya =>
          hnd.1 (hxa ▸ hya ▸ List.mem_map_of_mem (fun z => z.orderId) hy))
      have hcons : updateStored (x :: t) a (fun y => { y with status := OrderStatus.cancelled }) =
          ({ x with status := OrderStatus.cancelled }) :: t := by
        unfold updateStored at ht ⊢
        rw [List.map_cons, if_pos (by simp [hxa]), ht]
      rw [hcons, List.filter_cons, List.filter_cons]
      rw [if_pos hsell, if_neg (by simp [isPendingSell])]
      simp
    · have hot : o ∈ t := by
        rcases List.mem_cons.mp ho with h | hot
        · exact absurd (h ▸ hid) hxa
        · exact hot
      have hcons : updateStored (x :: t) a (fun y => { y with status := OrderStatus.cancelled }) =
          x :: updateStored t a (fun y => { y with status := OrderStatus.cancelled }) := by
        unfold updateStored
        rw [List.map_cons, if_neg (by simp [hxa])]
      rw [hcons, List.filter_cons, List.filter_cons]
      by_cases hpx : isPendingSell x = true
      · rw [if_pos hpx, if_pos hpx]
        simp only [List.length_cons]
        rw [ih hnd.2 hot]
      · rw [if_neg hpx, if_neg hpx]
        exact ih hnd.2 hot

lemma getOrder_markBatchCancelled_not_mem (st : TrackerState) (ids : List ℕ) (i : ℕ)
    (h : i ∉ ids) : getOrder (markBatchCancelled st ids) i = getOrder st i := by
  induction ids generalizing st with
  | nil => rfl
  | cons b u ihu =>
    show getOrder (markBatchCancelled (markCancelled st b) u) i = _
    rw [ihu (markCancelled st b) (fun hiu => h (List.mem_cons_of_mem b hiu))]
    exact getOrder_markCancelled_ne st b i (fun hib => h (hib ▸ List.mem_cons_self b u))

lemma map_orderId_markCancelled (st : TrackerState) (a : ℕ) :
    (markCancelled st a).orders.map (fun x => x.orderId) =
      st.orders.map (fun x => x.orderId) := by
  unfold markCancelled
  cases getOrder st a with
  | none => rfl
  | some o2 =>
    show (updateStored st.orders a _).map _ = _
    unfold updateStored
    rw [List.map_map]
    exact List.map_congr_left (fun x _ => by by_cases h : x.orderId = a <;> simp [h])

/-- The combined facts about `markBatchCancelled` over fresh pending-sell
ids: the pending-sell count drops by the batch size, the id multiset is
unchanged, and every marked id reads back as cancelled. -/
lemma markBatch_facts (st : TrackerState) (ids : List ℕ)
    (hnd : (st.orders.map (fun x => x.orderId)).Nodup)
    (hids : ids.Nodup)
    (hmem : ∀ i ∈ ids, ∃ o ∈ st.orders,
      o.orderId = i ∧ isPendingSell o = true) :
    pendingSellCount st = pendingSellCount (markBatchCancelled st ids) + ids.length
    ∧ (markBatchCancelled st ids).orders.map (fun x => x.orderId) =
      st.orders.map (fun x => x.orderId)
    ∧ ∀ i ∈ ids, ((getOrder (markBatchCancelled st ids) i).map (fun o => o.status)) =
      some OrderStatus.cancelled := by
  induction ids generalizing st with
  | nil => exact ⟨rfl, rfl, by intro i hi; cases hi⟩
  | cons a t ih =>
    obtain ⟨o, ho, hid, hsell⟩ := hmem a (List.mem_cons_self a t)
    have hfind : getOrder st a = some o := by
      have := find?_id_of_nodup st.orders o hnd ho
      rw [hid] at this
      exact this
    have hone : markCancelled st a =
        { orders := updateStored st.orders a (fun x => { x with status := OrderStatus.cancelled })
          activeBuyOrderId :=
            if st.activeBuyOrderId = some a then none else st.activeBuyOrderId } := by
      unfold markCancelled
      rw [hfind]
    have hndt : a ∉ t := (List.nodup_cons.mp hids).1
    have hids' : t.Nodup := (List.nodup_cons.mp hids).2
    have hnd1 : ((markCancelled st a).orders.map (fun x => x.orderId)).Nodup := by
      rw [map_orderId_markCancelled]; exact hnd
    have hmem1 : ∀ i ∈ t, ∃ o' ∈ (markCancelled st a).orders,
        o'.orderId = i ∧ isPendingSell o' = true := by
      intro i hi
      obtain ⟨o', ho', hid', hsell'⟩ := hmem i (List.mem_cons_of_mem a hi)
      have hne : o'.orderId ≠ a := by
        rw [hid']; intro h; exact hndt (h ▸ hi)
      rw [hone]
      exact ⟨o', mem_updateStored_of_ne st.orders a _ o' ho' hne, hid', hsell'⟩
    obtain ⟨ihcount, ihmap, ihget⟩ := ih (markCancelled st a) hnd1 hids' hmem1
    have hstep : pendingSellCount st = pendingSellCount (markCancelled st a) + 1 := by
      unfold pendingSellCount
      rw [hone]
      exact length_filter_updateStored_cancel st.orders a hnd o ho hid hsell
    refine ⟨?_, ?_, ?_⟩
    · show pendingSellCount st =
        pendingSellCount (markBatchCancelled (markCancelled st a) t) + (t.length + 1)
      omega
    · show (markBatchCancelled (markCancelled st a) t).orders.map (fun x => x.orderId) = _
      rw [ihmap, map_orderId_markCancelled]
    · intro i hi
      rcases List.mem_cons.mp hi with rfl | hit
      · have huntouched : getOrder (markBatchCancelled (markCancelled st i) t) i =
            getOrder (markCancelled st i) i :=
          getOrder_markBatchCancelled_not_mem (markCancelled st i) t i hndt
        show (getOrder (markBatchCancelled (markCancelled st i) t) i).map _ = _
        rw [huntouched, hone]
        show ((updateStored st.orders i _).find? _).map _ = _
        rw [find?_updateStored_eq st.orders i
          (fun x => { x with status := OrderStatus.cancelled }) (fun x => rfl) o hfind]
        rfl
      · exact ihget i hit

lemma markBatchCancelled_append (st : TrackerState) (a b : List ℕ) :
    markBatchCancelled st (a ++ b) = markBatchCancelled (markBatchCancelled st a) b :=
  List.foldl_append _ _ _ _

lemma batchCancelLoop_eq_aux (cancelResp : List ℕ → List ℕ) :
    ∀ n (ids : List ℕ), ids.length ≤ n → ∀ st,
      batchCancelLoop cancelResp st ids =
        (markBatchCancelled st (cancelListOf cancelResp ids),
         cancelListOf cancelResp ids) := by
  intro n
  induction n with
  | zero =>
    intro ids h st
    have hnil : ids = [] := List.eq_nil_of_length_eq_zero (Nat.le_zero.mp h)
    subst hnil
    unfold batchCancelLoop cancelListOf
    rfl
  | succ n ih =>
    intro ids h st
    by_cases hnil : ids = []
    · subst hnil
      unfold batchCancelLoop cancelListOf
      rfl
    · have hlen : (ids.drop 50).length ≤ n := by
        have hpos := List.length_pos.mpr hnil
        simp only [List.length_drop]
        omega
      unfold batchCancelLoop cancelListOf
      rw [dif_neg hnil, dif_neg hnil]
      simp only
      rw [ih (ids.drop 50) hlen (markBatchCancelled st (cancelResp (ids.take 50)))]
      rw [markBatchCancelled_append]

lemma batchCancelLoop_spec (cancelResp : List ℕ → List ℕ) (st : TrackerState)
    (ids : List ℕ) :
    batchCancelLoop cancelResp st ids =
      (markBatchCancelled st (cancelListOf cancelResp ids),
       cancelListOf cancelResp ids) :=
  batchCancelLoop_eq_aux cancelResp ids.length ids le_rfl st

lemma cancelListOf_facts_aux (cancelResp : List ℕ → List ℕ)
    (hresp : ∀ b, (∀ i ∈ cancelResp b, i ∈ b) ∧ (cancelResp b).Nodup) :
    ∀ n (ids : List ℕ), ids.length ≤ n → ids.Nodup →
      (∀ i ∈ cancelListOf cancelResp ids, i ∈ ids)
      ∧ (cancelListOf cancelResp ids).Nodup := by
  intro n
  induction n with
  | zero =>
    intro ids h _
    have hnil : ids = [] := List.eq_nil_of_length_eq_zero (Nat.le_zero.mp h)
    subst hnil
    unfold cancelListOf
    simp
  | succ n ih =>
    intro ids h hnd
    by_cases hnil : ids = []
    · subst hnil
      unfold cancelListOf
      simp
    · have hlen : (ids.drop 50).length ≤ n := by
        have hpos := List.length_pos.mpr hnil
        simp only [List.length_drop]
        omega
      have hnddrop : (ids.drop 50).Nodup := hnd.sublist (List.drop_sublist _ _)
      obtain ⟨ihsub, ihnd⟩ := ih (ids.drop 50) hlen hnddrop
      unfold cancelListOf
      rw [dif_neg hnil]
      constructor
      · intro i hi
        rcases List.mem_append.mp hi with hi1 | hi2
        · exact List.take_subset _ _ ((hresp _).1 i hi1)
        · exact List.drop_subset _ _ (ihsub i hi2)
      · rw [List.nodup_append]
        refine ⟨(hresp _).2, ihnd, ?_⟩
        intro x hx1 hx2
        have h1 : x ∈ ids.take 50 := (hresp _).1 x hx1
        have h2 : x ∈ ids.drop 50 := ihsub x hx2
        have hd := hnd
        rw [← List.take_append_drop 50 ids, List.nodup_append] at hd
        exact hd.2.2 h1 h2

lemma cancelListOf_facts (cancelResp : List ℕ → List ℕ)
    (hresp : ∀ b, (∀ i ∈ cancelResp b, i ∈ b) ∧ (cancelResp b).Nodup)
    (ids : List ℕ) (hnd : ids.Nodup) :
    (∀ i ∈ cancelListOf cancelResp ids, i ∈ ids)
    ∧ (cancelListOf cancelResp ids).Nodup :=
  cancelListOf_facts_aux cancelResp hresp ids.length ids le_rfl hnd

lemma any_id_eq_false_iff (l : List TrackedOrder) (i : ℕ) :
    (l.any (fun x => x.orderId == i) = false) ↔ i ∉ l.map (fun x => x.orderId) := by
  rw [List.any_eq_false]
  constructor
  · intro h hmem
    obtain ⟨x, hx, hxi⟩ := List.mem_map.mp hmem
    exact h x hx (by simp [hxi])
  · intro h x hx hxi
    exact h (List.mem_map.mpr ⟨x, hx, by simpa using hxi⟩)

lemma getOrder_addOrder_fresh (st : TrackerState) (o : TrackedOrder)
    (hfresh : st.orders.any (fun x => x.orderId == o.orderId) = false) :
    getOrder (addOrder st o) o.orderId = some o := by
  show (mapSet st.orders o).find? _ = some o
  have hmapset : mapSet st.orders o = st.orders ++ [o] := by
    unfold mapSet
    rw [if_neg (by simp [hfresh])]
  rw [hmapset, List.find?_append]
  have hnone : st.orders.find? (fun x => x.orderId == o.orderId) = none := by
    rw [List.find?_eq_none]
    intro x hx
    simpa using List.any_eq_false.mp hfresh x hx
  rw [hnone]
  simp [List.find?]

lemma pendingSellCount_addOrder_fresh (st : TrackerState) (o : TrackedOrder)
    (hfresh : st.orders.any (fun x => x.orderId == o.orderId) = false)
    (hsell : isPendingSell o = true) :
    pendingSellCount (addOrder st o) = pendingSellCount st + 1 := by
  show ((mapSet st.orders o).filter isPendingSell).length = _
  have hmapset : mapSet st.orders o = st.orders ++ [o] := by
    unfold mapSet
    rw [if_neg (by simp [hfresh])]
  rw [hmapset, List.filter_append, List.length_append]
  simp [List.filter, hsell, pendingSellCount]

lemma mergeSet_ids_nodup (cfg : MergeConfig) (st : TrackerState)
    (hnd : (st.orders.map (fun x => x.orderId)).Nodup) :
    ((mergeSet cfg st).map (fun o => o.orderId)).Nodup := by
  have h1 : ((st.orders.filter isPendingSell).map (fun o => o.orderId)).Nodup :=
    ((List.filter_sublist _).map _).nodup hnd
  have h2 : ((getPendingSellOrders st).map (fun o => o.orderId)).Nodup := by
    unfold getPendingSellOrders
    exact ((List.mergeSort_perm _ _).map _).nodup_iff.mpr h1
  exact ((List.take_sublist _ _).map _).nodup h2

lemma mergeSet_mem_pending_sell (cfg : MergeConfig) (st : TrackerState)
    (o : TrackedOrder) (ho : o ∈ mergeSet cfg st) :
    o ∈ st.orders ∧ isPendingSell o = true := by
  have h1 : o ∈ getPendingSellOrders st := List.take_subset _ _ ho
  have h2 : o ∈ st.orders.filter isPendingSell := by
    unfold getPendingSellOrders at h1
    exact List.mem_mergeSort.mp h1
  exact ⟨(List.mem_filter.mp h2).1, (List.mem_filter.mp h2).2⟩

/-- C3: with at least `mergeThreshold` pending sells and well-behaved
exchange replies, `mergeSellOrders` (i) works on the pending sells sorted
ascending by creation time — a permutation of the pending-sell set — taking
the `mergeThreshold` oldest; (ii) if no cancel succeeded it fails with
STRATEGY_MERGE_FAILED leaving the tracker unchanged; (iii) if at least one
cancel succeeded and the placement succeeds, it places exactly one
post-only close sell at the size-weighted average price (rounded at the
configured precisions) and total size, tracks it as pending, and the
post-merge pending-sell count equals preCount − cancelledCount + 1. -/
theorem c3_merge_sell_orders (cfg : MergeConfig) (st : TrackerState)
    (cancelResp : List ℕ → List ℕ) (placeResp : Option ℕ) (ncl now : ℕ)
    (hrun : cfg.mergeThreshold ≤ (getPendingSellOrders st).length)
    (hnd : (st.orders.map (fun x => x.orderId)).Nodup)
    (hresp : ∀ b, (∀ i ∈ cancelResp b, i ∈ b) ∧ (cancelResp b).Nodup)
    (hfresh : ∀ nid, placeResp = some nid →
      st.orders.any (fun x => x.orderId == nid) = false) :
    (List.Pairwise (fun a b : TrackedOrder => a.createdAt ≤ b.createdAt)
        (getPendingSellOrders st)
      ∧ (getPendingSellOrders st).Perm (st.orders.filter isPendingSell)
      ∧ (mergeSet cfg st).length = cfg.mergeThreshold)
    ∧ (mergeCancelledIds cfg st cancelResp = [] →
        mergeSellOrders cfg st cancelResp placeResp ncl now =
          MergeOutcome.mergeFailedNoCancels st)
    ∧ (∀ nid, placeResp = some nid → mergeCancelledIds cfg st cancelResp ≠ [] →
        ∃ st', mergeSellOrders cfg st cancelResp placeResp ncl now =
          MergeOutcome.placed st'
            { symbol := cfg.symbol
              size := mergeTotalSize cfg st
              side := Side.sell
              orderType := OrderKind.limit
              price := some (mergeAvgPrice cfg st)
              force := OrderForce.post_only
              tradeSide := some TradeSide.closeSide
              clientOid := ncl }
            { mergedCount := (mergeCancelledIds cfg st cancelResp).length
              cancelledOrderIds := mergeCancelledIds cfg st cancelResp
              newOrderId := nid
              avgPrice := mergeAvgPrice cfg st
              totalSize := mergeTotalSize cfg st }
          ∧ (getOrder st' nid).map (fun o => (o.side, o.status, o.price, o.size)) =
            some (Side.sell, OrderStatus.pending, mergeAvgPrice cfg st,
              mergeTotalSize cfg st)
          ∧ pendingSellCount st' + (mergeCancelledIds cfg st cancelResp).length =
            pendingSellCount st + 1
          ∧ pendingSellCount st' =
            pendingSellCount st - (mergeCancelledIds cfg st cancelResp).length + 1) := by
  have htrans : ∀ a b c : TrackedOrder,
      (fun a b : TrackedOrder => decide (a.createdAt ≤ b.createdAt)) a b →
      (fun a b : TrackedOrder => decide (a.createdAt ≤ b.createdAt)) b c →
      (fun a b : TrackedOrder => decide (a.createdAt ≤ b.createdAt)) a c := by
    intro a b c hab hbc
    simp only [decide_eq_true_eq] at hab hbc ⊢
    omega
  have htotal : ∀ a b : TrackedOrder,
      ((fun a b : TrackedOrder => decide (a.createdAt ≤ b.createdAt)) a b
        || (fun a b : TrackedOrder => decide (a.createdAt ≤ b.createdAt)) b a) = true := by
    intro a b
    simp only [Bool.or_eq_true, decide_eq_true_eq]
    omega
  -- facts about the cancelled ids
  have hcf := cancelListOf_facts cancelResp hresp
    ((mergeSet cfg st).map (fun o => o.orderId)) (mergeSet_ids_nodup cfg st hnd)
  have hmem : ∀ i ∈ mergeCancelledIds cfg st cancelResp,
      ∃ o ∈ st.orders, o.orderId = i ∧ isPendingSell o = true := by
    intro i hi
    have : i ∈ (mergeSet cfg st).map (fun o => o.orderId) := hcf.1 i hi
    obtain ⟨o, ho, hoid⟩ := List.mem_map.mp this
    obtain ⟨hol, hsell⟩ := mergeSet_mem_pending_sell cfg st o ho
    exact ⟨o, hol, hoid, hsell⟩
  have hbf := markBatch_facts st (mergeCancelledIds cfg st cancelResp) hnd hcf.2 hmem
  -- reduce mergeSellOrders to its else branch
  have hnotlt : ¬ ((getPendingSellOrders st).length < cfg.mergeThreshold) := by omega
  refine ⟨⟨?_, ?_, ?_⟩, ?_, ?_⟩
  · exact (List.sorted_mergeSort htrans htotal _).imp (fun h => by
      simpa using h)
  · exact List.mergeSort_perm _ _
  · unfold mergeSet
    rw [List.length_take]
    omega
  · intro hc
    unfold mergeSellOrders
    rw [if_neg hnotlt]
    simp only [batchCancelLoop_spec]
    have : cancelListOf cancelResp
        (((getPendingSellOrders st).take cfg.mergeThreshold).map (fun o => o.orderId)) = [] := hc
    rw [this]
    rfl
  · intro nid hp hc
    refine ⟨addOrder (markBatchCancelled st (mergeCancelledIds cfg st cancelResp))
      { orderId := nid
        clientOid := ncl
        side := Side.sell
        price := mergeAvgPrice cfg st
        size := mergeTotalSize cfg st
        status := OrderStatus.pending
        linkedOrderId := none
        direction := cfg.direction
        createdAt := now
        filledAt := none }, ?_, ?_, ?_, ?_⟩
    · unfold mergeSellOrders
      rw [if_neg hnotlt]
      simp only [batchCancelLoop_spec, hp]
      rw [if_neg (by simp only [List.isEmpty_iff]; exact hc)]
      rfl
    · have hfr : (markBatchCancelled st (mergeCancelledIds cfg st cancelResp)).orders.any
          (fun x => x.orderId == nid) = false := by
        rw [any_id_eq_false_iff, hbf.2.1, ← any_id_eq_false_iff]
        exact hfresh nid hp
      rw [getOrder_addOrder_fresh _ _ hfr]
      rfl
    · have h1 := hbf.1
      have h2 := pendingSellCount_addOrder_fresh
        (markBatchCancelled st (mergeCancelledIds cfg st cancelResp))
        { orderId := nid
          clientOid := ncl
          side := Side.sell
          price := mergeAvgPrice cfg st
          size := mergeTotalSize cfg st
          status := OrderStatus.pending
          linkedOrderId := none
          direction := cfg.direction
          createdAt := now
          filledAt := none }
        (by rw [any_id_eq_false_iff, hbf.2.1, ← any_id_eq_false_iff]
            exact hfresh nid hp)
        (by rfl)
      omega
    · have h1 := hbf.1
      have h2 := pendingSellCount_addOrder_fresh
        (markBatchCancelled st (mergeCancelledIds cfg st cancelResp))
        { orderId := nid
          clientOid := ncl
          side := Side.sell
          price := mergeAvgPrice cfg st
          size := mergeTotalSize cfg st
          status := OrderStatus.pending
          linkedOrderId := none
          direction := cfg.direction
          createdAt := now
          filledAt := none }
        (by rw [any_id_eq_false_iff, hbf.2.1, ← any_id_eq_false_iff]
            exact hfresh nid hp)
        (by rfl)
      omega

/-- C9: the merge is not atomic w.r.t. the tracker.  If at least one
batch-cancel succeeded and the replacement placement throws,
`mergeSellOrders` propagates the error: the cancelled sells stay marked
cancelled, no replacement is tracked (the order list keeps its length), and
the pending-sell count has dropped by the cancelled count with no
compensating order. -/
theorem c9_merge_place_failure_drops_cover (cfg : MergeConfig) (st : TrackerState)
    (cancelResp : List ℕ → List ℕ) (ncl now : ℕ)
    (hrun : cfg.mergeThreshold ≤ (getPendingSellOrders st).length)
    (hnd : (st.orders.map (fun x => x.orderId)).Nodup)
    (hresp : ∀ b, (∀ i ∈ cancelResp b, i ∈ b) ∧ (cancelResp b).Nodup)
    (hc : mergeCancelledIds cfg st cancelResp ≠ []) :
    mergeSellOrders cfg st cancelResp none ncl now =
      MergeOutcome.placeFailed
        (markBatchCancelled st (mergeCancelledIds cfg st cancelResp))
        { symbol := cfg.symbol
          size := mergeTotalSize cfg st
          side := Side.sell
          orderType := OrderKind.limit
          price := some (mergeAvgPrice cfg st)
          force := OrderForce.post_only
          tradeSide := some TradeSide.closeSide
          clientOid := ncl }
    ∧ (∀ i ∈ mergeCancelledIds cfg st cancelResp,
        (getOrder (markBatchCancelled st (mergeCancelledIds cfg st cancelResp)) i).map
          (fun o => o.status) = some OrderStatus.cancelled)
    ∧ pendingSellCount (markBatchCancelled st (mergeCancelledIds cfg st cancelResp)) +
        (mergeCancelledIds cfg st cancelResp).length = pendingSellCount st
    ∧ (markBatchCancelled st (mergeCancelledIds cfg st cancelResp)).orders.length =
      st.orders.length := by
  have hcf := cancelListOf_facts cancelResp hresp
    ((mergeSet cfg st).map (fun o => o.orderId)) (mergeSet_ids_nodup cfg st hnd)
  have hmem : ∀ i ∈ mergeCancelledIds cfg st cancelResp,
      ∃ o ∈ st.orders, o.orderId = i ∧ isPendingSell o = true := by
    intro i hi
    have : i ∈ (mergeSet cfg st).map (fun o => o.orderId) := hcf.1 i hi
    obtain ⟨o, ho, hoid⟩ := List.mem_map.mp this
    obtain ⟨hol, hsell⟩ := mergeSet_mem_pending_sell cfg st o ho
    exact ⟨o, hol, hoid, hsell⟩
  have hbf := markBatch_facts st (mergeCancelledIds cfg st cancelResp) hnd hcf.2 hmem
  have hnotlt : ¬ ((getPendingSellOrders st).length < cfg.mergeThreshold) := by omega
  refine ⟨?_, hbf.2.2, by have := hbf.1; omega, ?_⟩
  · unfold mergeSellOrders
    rw [if_neg hnotlt]
    simp only [batchCancelLoop_spec]
    rw [if_neg (by simp only [List.isEmpty_iff]; exact hc)]
    rfl
  · have hmap := hbf.2.1
    have := congrArg List.length hmap
    simpa using this

lemma mergeSample_pendingSells : getPendingSellOrders mergeStSample = [mSell1, mSell2] := by
  unfold getPendingSellOrders
  have h1 : mergeStSample.orders.filter isPendingSell = [mSell1, mSell2] := rfl
  rw [h1]
  exact List.mergeSort_of_sorted (by decide)

lemma mergeSample_set : mergeSet mergeCfgSample mergeStSample = [mSell1, mSell2] := by
  unfold mergeSet
  rw [mergeSample_pendingSells]
  rfl

lemma mergeSample_cancelled :
    mergeCancelledIds mergeCfgSample mergeStSample (fun b => b.dedup) = [1, 2] := by
  have hnil : cancelListOf (fun b : List ℕ => b.dedup) ([] : List ℕ) = [] := by
    unfold cancelListOf
    rfl
  unfold mergeCancelledIds
  rw [mergeSample_set]
  show cancelListOf (fun b : List ℕ => b.dedup) [1, 2] = [1, 2]
  unfold cancelListOf
  rw [dif_neg (by decide)]
  rw [show (([1, 2] : List ℕ).drop 50) = [] from rfl, hnil]
  decide

/-- Witness for C3: the two sample sells merge into one order; the
success branch of the claim theorem applied at the sample scenario. -/
theorem c3_merge_sell_orders_witness :
    ∃ st', mergeSellOrders mergeCfgSample mergeStSample (fun b => b.dedup) (some 100) 500 999 =
      MergeOutcome.placed st'
        { symbol := mergeCfgSample.symbol
          size := mergeTotalSize mergeCfgSample mergeStSample
          side := Side.sell
          orderType := OrderKind.limit
          price := some (mergeAvgPrice mergeCfgSample mergeStSample)
          force := OrderForce.post_only
          tradeSide := some TradeSide.closeSide
          clientOid := 500 }
        { mergedCount := (mergeCancelledIds mergeCfgSample mergeStSample (fun b => b.dedup)).length
          cancelledOrderIds := mergeCancelledIds mergeCfgSample mergeStSample (fun b => b.dedup)
          newOrderId := 100
          avgPrice := mergeAvgPrice mergeCfgSample mergeStSample
          totalSize := mergeTotalSize mergeCfgSample mergeStSample }
      ∧ (getOrder st' 100).map (fun o => (o.side, o.status, o.price, o.size)) =
        some (Side.sell, OrderStatus.pending, mergeAvgPrice mergeCfgSample mergeStSample,
          mergeTotalSize mergeCfgSample mergeStSample)
      ∧ pendingSellCount st' +
          (mergeCancelledIds mergeCfgSample mergeStSample (fun b => b.dedup)).length =
        pendingSellCount mergeStSample + 1
      ∧ pendingSellCount st' =
        pendingSellCount mergeStSample -
          (mergeCancelledIds mergeCfgSample mergeStSample (fun b => b.dedup)).length + 1 :=
  (c3_merge_sell_orders mergeCfgSample mergeStSample (fun b => b.dedup) (some 100) 500 999
    (by rw [mergeSample_pendingSells]; decide)
    (by decide)
    (fun b => ⟨fun i hi => List.dedup_subset b hi, List.nodup_dedup b⟩)
    (fun nid h => by injection h with h'; subst h'; decide)).2.2
    100 rfl (by rw [mergeSample_cancelled]; decide)

/-- Witness for C9: same scenario with a failing placement. -/
theorem c9_merge_place_failure_drops_cover_witness :
    mergeSellOrders mergeCfgSample mergeStSample (fun b => b.dedup) none 500 999 =
      MergeOutcome.placeFailed
        (markBatchCancelled mergeStSample
          (mergeCancelledIds mergeCfgSample mergeStSample (fun b => b.dedup)))
        { symbol := mergeCfgSample.symbol
          size := mergeTotalSize mergeCfgSample mergeStSample
          side := Side.sell
          orderType := OrderKind.limit
          price := some (mergeAvgPrice mergeCfgSample mergeStSample)
          force := OrderForce.post_only
          tradeSide := some TradeSide.closeSide
          clientOid := 500 }
    ∧ (∀ i ∈ mergeCancelledIds mergeCfgSample mergeStSample (fun b => b.dedup),
        (getOrder (markBatchCancelled mergeStSample
          (mergeCancelledIds mergeCfgSample mergeStSample (fun b => b.dedup))) i).map
          (fun o => o.status) = some OrderStatus.cancelled)
    ∧ pendingSellCount (markBatchCancelled mergeStSample
        (mergeCancelledIds mergeCfgSample mergeStSample (fun b => b.dedup))) +
        (mergeCancelledIds mergeCfgSample mergeStSample (fun b => b.dedup)).length =
      pendingSellCount mergeStSample
    ∧ (markBatchCancelled mergeStSample
        (mergeCancelledIds mergeCfgSample mergeStSample (fun b => b.dedup))).orders.length =
      mergeStSample.orders.length :=
  c9_merge_place_failure_drops_cover mergeCfgSample mergeStSample (fun b => b.dedup) 500 999
    (by rw [mergeSample_pendingSells]; decide)
    (by decide)
    (fun b => ⟨fun i hi => List.dedup_subset b hi, List.nodup_dedup b⟩)
    (by rw [mergeSample_cancelled]; decide)

lemma getOrder_confirmFilled_ne (st : TrackerState) (a now i : ℕ) (hne : i ≠ a) :
    getOrder (confirmFilled st a now).1 i = getOrder st i := by
  unfold confirmFilled
  cases hgo : getOrder st a with
  | none => rfl
  | some o2 =>
    dsimp only
    by_cases hp : o2.status ≠ OrderStatus.pending
    · rw [if_pos hp]
    · rw [if_neg hp]
      exact find?_updateStored_ne st.orders a
        (fun x => { x with status := OrderStatus.filled, filledAt := some now })
        (fun x => rfl) i hne

lemma getOrder_markExchangeCancelled_ne (st : TrackerState) (a i : ℕ) (hne : i ≠ a) :
    getOrder (markExchangeCancelled st a) i = getOrder st i := by
  unfold markExchangeCancelled
  cases hgo : getOrder st a with
  | none => rfl
  | some o2 =>
    dsimp only
    by_cases hp : o2.status = OrderStatus.pending
    · rw [if_pos hp]
      exact find?_updateStored_ne st.orders a
        (fun x => { x with status := OrderStatus.cancelled })
        (fun x => rfl) i hne
    · rw [if_neg hp]

lemma getOrder_processDisappeared_ne (st : TrackerState) (eng : EngineAux)
    (snapshot : TrackedOrder) (lookup : Option DetailState) (now i : ℕ)
    (hne : i ≠ snapshot.orderId) :
    getOrder (processDisappeared st eng snapshot lookup now).1 i = getOrder st i := by
  cases lookup with
  | none => rfl
  | some ds =>
    cases ds with
    | filled =>
      simp only [processDisappeared]
      cases hr : (confirmFilled st snapshot.orderId now).2 with
      | none =>
        dsimp only
        exact getOrder_confirmFilled_ne st snapshot.orderId now i hne
      | some confirmed =>
        dsimp only
        by_cases hside : confirmed.side = Side.buy
        · rw [if_pos hside]
          exact getOrder_confirmFilled_ne st snapshot.orderId now i hne
        · rw [if_neg hside]
          exact getOrder_confirmFilled_ne st snapshot.orderId now i hne
    | live => rfl
    | partFilled => rfl
    | otherTerminal =>
      simp only [processDisappeared]
      by_cases hside : snapshot.side = Side.buy
      · rw [if_pos hside]
        exact getOrder_markExchangeCancelled_ne st snapshot.orderId i hne
      · rw [if_neg hside]
        exact getOrder_markExchangeCancelled_ne st snapshot.orderId i hne

lemma getOrder_fold_processDisappeared (l : List TrackedOrder)
    (lookup : ℕ → Option DetailState) (now i : ℕ) (h : ∀ o ∈ l, o.orderId ≠ i) :
    ∀ (st : TrackerState) (eng : EngineAux),
      getOrder ((l.foldl
        (fun acc o => processDisappeared acc.1 acc.2 o (lookup o.orderId) now)
        (st, eng)).1) i = getOrder st i := by
  induction l with
  | nil => intro st eng; rfl
  | cons o' t ih =>
    intro st eng
    show getOrder ((t.foldl _ (processDisappeared st eng o' (lookup o'.orderId) now)).1) i = _
    have hne : i ≠ o'.orderId := fun hh => h o' (List.mem_cons_self o' t) hh.symm
    rw [show (processDisappeared st eng o' (lookup o'.orderId) now) =
      ((processDisappeared st eng o' (lookup o'.orderId) now).1,
       (processDisappeared st eng o' (lookup o'.orderId) now).2) from rfl]
    rw [ih (fun x hx => h x (List.mem_cons_of_mem o' hx)) _ _]
    exact getOrder_processDisappeared_ne st eng o' (lookup o'.orderId) now i hne

/-- C1: for every locally-pending tracked order absent from the exchange
pending snapshot, Loop B's reconcile (i) examines it as disappeared;
(ii) marks it filled when the detail lookup returns `filled`, and (iii)
ONLY then; (iv) leaves it pending and unchanged on `live` or
`partially_filled`; (v) leaves it pending on a failed detail call, where
it is found disappeared again next tick — a failed or missing lookup never
causes a fill to be assumed. -/
theorem c1_loopB_two_step (st : TrackerState) (eng : EngineAux)
    (ids : List ℕ) (lookup : ℕ → Option DetailState) (now : ℕ)
    (hnd : (st.orders.map (fun x => x.orderId)).Nodup)
    (o : TrackedOrder) (ho : o ∈ st.orders) (hp : o.status = OrderStatus.pending)
    (habs : o.orderId ∉ ids) :
    o ∈ findDisappearedOrders st ids
    ∧ (lookup o.orderId = some DetailState.filled →
        (getOrder (runLoopBReconcile st eng ids lookup now).1 o.orderId).map
          (fun x => x.status) = some OrderStatus.filled)
    ∧ ((getOrder (runLoopBReconcile st eng ids lookup now).1 o.orderId).map
          (fun x => x.status) = some OrderStatus.filled →
        lookup o.orderId = some DetailState.filled)
    ∧ ((lookup o.orderId = some DetailState.live ∨
        lookup o.orderId = some DetailState.partFilled) →
        getOrder (runLoopBReconcile st eng ids lookup now).1 o.orderId = some o)
    ∧ (lookup o.orderId = none →
        getOrder (runLoopBReconcile st eng ids lookup now).1 o.orderId = some o
        ∧ o ∈ findDisappearedOrders (runLoopBReconcile st eng ids lookup now).1 ids) := by
  have hget : getOrder st o.orderId = some o := find?_id_of_nodup st.orders o hnd ho
  have hmem : o ∈ findDisappearedOrders st ids := by
    unfold findDisappearedOrders
    rw [List.mem_filter]
    exact ⟨ho, by simp [hp, habs]⟩
  obtain ⟨l1, l2, hsplit⟩ := List.append_of_mem hmem
  have hDnd : ((findDisappearedOrders st ids).map (fun x => x.orderId)).Nodup :=
    ((List.filter_sublist _).map _).nodup hnd
  rw [hsplit, List.map_append, List.map_cons, List.nodup_append] at hDnd
  have hl1 : ∀ x ∈ l1, x.orderId ≠ o.orderId := by
    intro x hx heq
    exact hDnd.2.2 (List.mem_map_of_mem _ hx) (by rw [heq]; exact List.mem_cons_self _ _)
  have hl2 : ∀ x ∈ l2, x.orderId ≠ o.orderId := by
    intro x hx heq
    exact (List.nodup_cons.mp hDnd.2.1).1 (heq ▸ List.mem_map_of_mem (fun y => y.orderId) hx)
  have hrun : runLoopBReconcile st eng ids lookup now =
      l2.foldl (fun acc x => processDisappeared acc.1 acc.2 x (lookup x.orderId) now)
        (processDisappeared
          ((l1.foldl (fun acc x => processDisappeared acc.1 acc.2 x (lookup x.orderId) now)
            (st, eng)).1)
          ((l1.foldl (fun acc x => processDisappeared acc.1 acc.2 x (lookup x.orderId) now)
            (st, eng)).2)
          o (lookup o.orderId) now) := by
    unfold runLoopBReconcile
    rw [hsplit, List.foldl_append]
    rfl
  have hacc1 : getOrder ((l1.foldl
      (fun acc x => processDisappeared acc.1 acc.2 x (lookup x.orderId) now) (st, eng)).1)
      o.orderId = some o :=
    (getOrder_fold_processDisappeared l1 lookup now o.orderId hl1 st eng).trans hget
  have hfinal : ∀ res : TrackerState × EngineAux,
      getOrder ((l2.foldl
        (fun acc x => processDisappeared acc.1 acc.2 x (lookup x.orderId) now) res).1)
        o.orderId = getOrder res.1 o.orderId := fun res =>
    getOrder_fold_processDisappeared l2 lookup now o.orderId hl2 res.1 res.2
  have hmain : ∀ lk, lookup o.orderId = lk →
      getOrder (runLoopBReconcile st eng ids lookup now).1 o.orderId =
        getOrder (processDisappeared
          ((l1.foldl (fun acc x => processDisappeared acc.1 acc.2 x (lookup x.orderId) now)
            (st, eng)).1)
          ((l1.foldl (fun acc x => processDisappeared acc.1 acc.2 x (lookup x.orderId) now)
            (st, eng)).2)
          o lk now).1 o.orderId := by
    intro lk hlk
    rw [hrun, hfinal _, hlk]
  have state_filled : ∀ (st' : TrackerState) (eng' : EngineAux),
      (processDisappeared st' eng' o (some DetailState.filled) now).1 =
        (confirmFilled st' o.orderId now).1 := by
    intro st' eng'
    simp only [processDisappeared]
    cases (confirmFilled st' o.orderId now).2 with
    | none => rfl
    | some c =>
      dsimp only
      split <;> rfl
  have state_other : ∀ (st' : TrackerState) (eng' : EngineAux),
      (processDisappeared st' eng' o (some DetailState.otherTerminal) now).1 =
        markExchangeCancelled st' o.orderId := by
    intro st' eng'
    simp only [processDisappeared]
    split <;> rfl
  have hfilled : getOrder (processDisappeared
      ((l1.foldl (fun acc x => processDisappeared acc.1 acc.2 x (lookup x.orderId) now)
        (st, eng)).1)
      ((l1.foldl (fun acc x => processDisappeared acc.1 acc.2 x (lookup x.orderId) now)
        (st, eng)).2)
      o (some DetailState.filled) now).1 o.orderId =
      some { o with status := OrderStatus.filled, filledAt := some now } := by
    rw [state_filled]
    unfold confirmFilled
    rw [hacc1]
    dsimp only
    rw [if_neg (by rw [hp]; simp)]
    exact find?_updateStored_eq _ o.orderId
      (fun x => { x with status := OrderStatus.filled, filledAt := some now })
      (fun x => rfl) o hacc1
  have hother : getOrder (processDisappeared
      ((l1.foldl (fun acc x => processDisappeared acc.1 acc.2 x (lookup x.orderId) now)
        (st, eng)).1)
      ((l1.foldl (fun acc x => processDisappeared acc.1 acc.2 x (lookup x.orderId) now)
        (st, eng)).2)
      o (some DetailState.otherTerminal) now).1 o.orderId =
      some { o with status := OrderStatus.cancelled } := by
    rw [state_other]
    unfold markExchangeCancelled
    rw [hacc1]
    dsimp only
    rw [if_pos hp]
    exact find?_updateStored_eq _ o.orderId
      (fun x => { x with status := OrderStatus.cancelled })
      (fun x => rfl) o hacc1
  refine ⟨hmem, ?_, ?_, ?_, ?_⟩
  · intro hlk
    rw [hmain _ hlk, hfilled]
    rfl
  · intro hst
    cases hlk : lookup o.orderId with
    | none =>
      rw [hmain _ hlk] at hst
      rw [show getOrder (processDisappeared _ _ o none now).1 o.orderId = some o
        from hacc1] at hst
      simp [hp] at hst
    | some ds =>
      cases ds with
      | filled => rfl
      | live =>
        rw [hmain _ hlk] at hst
        rw [show getOrder (processDisappeared _ _ o (some DetailState.live) now).1 o.orderId =
          some o from hacc1] at hst
        simp [hp] at hst
      | partFilled =>
        rw [hmain _ hlk] at hst
        rw [show getOrder
          (processDisappeared _ _ o (some DetailState.partFilled) now).1 o.orderId =
          some o from hacc1] at hst
        simp [hp] at hst
      | otherTerminal =>
        rw [hmain _ hlk, hother] at hst
        simp at hst
  · intro hlk
    rcases hlk with hlk | hlk <;> rw [hmain _ hlk] <;> exact hacc1
  · intro hlk
    have hgo : getOrder (runLoopBReconcile st eng ids lookup now).1 o.orderId = some o := by
      rw [hmain _ hlk]
      exact hacc1
    refine ⟨hgo, ?_⟩
    have homem : o ∈ (runLoopBReconcile st eng ids lookup now).1.orders :=
      List.mem_of_find?_eq_some hgo
    unfold findDisappearedOrders
    rw [List.mem_filter]
    exact ⟨homem, by simp [hp, habs]⟩

/-- Witness for C1: the pending buy is absent from an empty exchange
snapshot and every detail call fails; the reconcile leaves it pending. -/
theorem c1_loopB_two_step_witness :
    c1Order ∈ findDisappearedOrders c1St []
    ∧ ((fun _ : ℕ => (none : Option DetailState)) c1Order.orderId = some DetailState.filled →
        (getOrder (runLoopBReconcile c1St ⟨0, 0⟩ [] (fun _ => none) 77).1 c1Order.orderId).map
          (fun x => x.status) = some OrderStatus.filled)
    ∧ ((getOrder (runLoopBReconcile c1St ⟨0, 0⟩ [] (fun _ => none) 77).1 c1Order.orderId).map
          (fun x => x.status) = some OrderStatus.filled →
        (fun _ : ℕ => (none : Option DetailState)) c1Order.orderId = some DetailState.filled)
    ∧ (((fun _ : ℕ => (none : Option DetailState)) c1Order.orderId = some DetailState.live ∨
        (fun _ : ℕ => (none : Option DetailState)) c1Order.orderId = some DetailState.partFilled) →
        getOrder (runLoopBReconcile c1St ⟨0, 0⟩ [] (fun _ => none) 77).1 c1Order.orderId =
          some c1Order)
    ∧ ((fun _ : ℕ => (none : Option DetailState)) c1Order.orderId = none →
        getOrder (runLoopBReconcile c1St ⟨0, 0⟩ [] (fun _ => none) 77).1 c1Order.orderId =
          some c1Order
        ∧ c1Order ∈ findDisappearedOrders (runLoopBReconcile c1St ⟨0, 0⟩ [] (fun _ => none) 77).1 []) :=
  c1_loopB_two_step c1St ⟨0, 0⟩ [] (fun _ => none) 77 (by decide) c1Order
    (List.mem_singleton.mpr rfl) rfl (by decide)

end BitgetTrading

